import Mathlib

/-!
# Model loading: scene importer adapter, renderer adapter and main loop

A shallow embedding of `ModelLoading/Practise/Model.c` and of the event loop of
`ModelLoading/Practise/main.c`, followed by the properties established for them.

Conventions of the embedding.

* `GLuint` counters and indices are natural numbers.  The size of the resize
  request in `Model_ProcessNode` and the subtraction `end_index - start_index`
  are modelled with their 32-bit wrap-around (`GLuint_add`, `GLuint_sub`); the
  other additions count elements of arrays already held in memory.
* `GLfloat` / importer real values are only moved from one structure to another
  (and the constant `0.0f` is written); they are represented by an integer carrier.
* A C array is a `List` holding the allocated block; its length is the capacity
  of the block.  Reading or writing outside the block makes the operation return
  `none`.  `malloc` and `realloc` fill fresh storage with an indeterminate value,
  represented by `default`.
* A C string is a `String` (the characters before the terminator); it occupies
  `strlen` bytes and one more for the terminator, a character counting for the
  bytes of its UTF-8 encoding.  A character array is written through `strcpy`,
  `strcat` or a copy loop, each of which returns `none` when a byte would fall
  outside the array.
* The sizes of the character arrays `directory` of `struct Model` and `type` of
  `struct Texture` are declared in `Types.h`, which is not among the files
  embedded here; they are the parameter `Types`.
* Calls into the graphics, image and windowing libraries, and the calls of
  `Mesh_Setup` / `Mesh_Render`, are recorded in `World.calls` in program order.
  Writes into the mesh block and the per-mesh texture block, and the resize
  requests for the mesh block, are recorded in `World.heap`.
-/

namespace ModelLoading

abbrev GLuint := Nat
abbrev GLfloat := Int

/-- The array sizes declared in `Types.h`, taken as parameters:
`GLchar directory[directory_size]` in `struct Model` and
`GLchar type[type_size]` in `struct Texture`. -/
structure Types where
  directory_size : Nat
  type_size : Nat

/-! ## Importer data (the structures the code reads) -/

structure aiVector3D where
  x : GLfloat
  y : GLfloat
  z : GLfloat
deriving DecidableEq, Inhabited

/-- A face: `mNumIndices` and the block `mIndices` points to. -/
structure aiFace where
  mNumIndices : Nat
  mIndices : List Nat
deriving DecidableEq, Inhabited

/-- The fields of a source mesh that the code reads.  `mTextureCoords0` is
`mTextureCoords[0]`; `none` is the null pointer. -/
structure aiMesh where
  mNumVertices : Nat
  mVertices : List aiVector3D
  mNormals : List aiVector3D
  mTextureCoords0 : Option (List aiVector3D)
  mTangents : List aiVector3D
  mBitangents : List aiVector3D
  mNumFaces : Nat
  mFaces : List aiFace
  mMaterialIndex : Nat
deriving DecidableEq, Inhabited

inductive aiTextureType where
  | NONE | DIFFUSE | SPECULAR | AMBIENT | EMISSIVE | HEIGHT | NORMALS
  | SHININESS | OPACITY | DISPLACEMENT | LIGHTMAP | REFLECTION | UNKNOWN
deriving DecidableEq, Inhabited

/-- A material, as seen through the two queries the code makes: for each
texture type the file paths of its textures, in index order. -/
structure aiMaterial where
  textures : aiTextureType → List String

def aiGetMaterialTextureCount (material : aiMaterial) (type : aiTextureType) : Nat :=
  (material.textures type).length

/-- The path of texture `index` of the given type; `none` when there is no such
texture (the call fails and the output string is not written). -/
def aiGetMaterialTexture (material : aiMaterial) (type : aiTextureType) (index : Nat) :
    Option String :=
  (material.textures type)[index]?

inductive aiNode where
  | mk (mNumMeshes : Nat) (mMeshes : List Nat) (mNumChildren : Nat) (mChildren : List aiNode)

structure aiScene where
  mRootNode : aiNode
  mMeshes : List aiMesh
  mMaterials : List aiMaterial

/-! ## Owned data -/

structure Vertex where
  position : GLfloat × GLfloat × GLfloat
  normal : GLfloat × GLfloat × GLfloat
  texcoords : GLfloat × GLfloat
  tangent : GLfloat × GLfloat × GLfloat
  bitangent : GLfloat × GLfloat × GLfloat
deriving DecidableEq, Inhabited

/-- The fields of `struct Texture` the code uses.  `type` is a character array
of `Types.type_size` bytes; `path` is an importer string, assigned as a whole. -/
structure Texture where
  id : GLuint
  type : String
  path : String
deriving DecidableEq, Inhabited

structure Mesh where
  vertex_count : Nat
  vertices : List Vertex
  index_count : Nat
  indices : List GLuint
  texture_count : Nat
  textures : List Texture
deriving DecidableEq, Inhabited

/-- The fields of `struct Model` the code uses.  `meshes` and `textures_loaded`
are the allocated blocks.  `directory` is a character array of
`Types.directory_size` bytes. -/
structure Model where
  mesh_count : Nat
  meshes : List Mesh
  textures_loaded : List Texture
  textures_loaded_count : Nat
  directory : String
deriving DecidableEq, Inhabited

/-! ## Recorded effects -/

inductive Call where
  /-- Entry into `Model_TextureFromFile` with its `path` and `directory` arguments. -/
  | Model_TextureFromFile (path : String) (directory : String)
  | glGenTextures (name : GLuint)
  | SOIL_load_image (filename : String)
  | glBindTexture (name : GLuint)
  | glTexImage2D (srgb : Bool)
  | glGenerateMipmap
  | glTexParameteri (pname : String) (param : String)
  | SOIL_free_image_data
  | Mesh_Setup (mesh : Mesh)
  | Mesh_Render (mesh : Mesh) (shader_prog : GLuint)
  | glClear
  | glUseProgram (program : GLuint)
  | Camera_Render (program : GLuint)
  | SDL_GL_SwapWindow
deriving DecidableEq

inductive HeapOp where
  /-- The resize of `model->meshes`: the mesh count at that moment and the
  number of elements requested. -/
  | realloc_meshes (mesh_count : Nat) (requested : Nat)
  /-- A write through `&model->meshes[index]` into a block of `capacity` elements. -/
  | write_mesh (index : Nat) (capacity : Nat)
  /-- A write into slot `slot` of the texture block of the mesh being built. -/
  | write_texture (slot : Nat)
deriving DecidableEq

/-- The world outside the model.  `gl_names n` is the texture name the graphics
library hands out at its `n`-th `glGenTextures` call. -/
structure World where
  calls : List Call
  heap : List HeapOp
  gl_names : Nat → GLuint
  gl_generated : Nat

def World.call (world : World) (c : Call) : World :=
  { world with calls := world.calls ++ [c] }

def World.heap_op (world : World) (op : HeapOp) : World :=
  { world with heap := world.heap ++ [op] }

/-! ## Memory and control helpers -/

def malloc {α : Type} [Inhabited α] (count : Nat) : List α :=
  List.replicate count default

def realloc {α : Type} [Inhabited α] (block : List α) (count : Nat) : List α :=
  block.take count ++ List.replicate (count - block.length) default

/-- The assignment `block[i] = v`. -/
def store {α : Type} (block : List α) (i : Nat) (v : α) : Option (List α) :=
  if i < block.length then some (block.set i v) else none

/-- The sum of two `GLuint` values, modulo `2 ^ 32`. -/
def GLuint_add (a : Nat) (b : Nat) : Nat :=
  (a + b) % 2 ^ 32

/-- The difference `a - b` of two `GLuint` values (both below `2 ^ 32`): the
difference itself when `b ≤ a`, and the wrapped value otherwise. -/
def GLuint_sub (a : Nat) (b : Nat) : Nat :=
  if b ≤ a then a - b else a + 2 ^ 32 - b

/-- The loop `for (i = first; i < first + remaining; ++i) body`, for a bound
the body does not change. -/
def for_loop {σ : Type} (body : Nat → σ → Option σ) : Nat → Nat → σ → Option σ
  | 0, _, s => some s
  | remaining + 1, i, s => (body i s).bind (for_loop body remaining (i + 1))

/-! ## `Model.c` -/

/-- The number of bytes a sequence of characters occupies. -/
def byte_count (cs : List Char) : Nat :=
  (cs.map Char.utf8Size).sum

/-- The C library function `strlen`: the number of bytes before the terminator. -/
def strlen (s : String) : Nat :=
  byte_count s.data

/-- The C library function `strcpy` into a character array of `size` bytes:
the content of the array afterwards, `none` when the string and its terminator
do not fit and bytes are written outside the array. -/
def strcpy (size : Nat) (source : String) : Option String :=
  if strlen source + 1 ≤ size then some source else none

/-- The C library function `strcat` onto the string `destination` held in a
character array of `size` bytes: the content of the array afterwards, `none`
when the two strings and the terminator do not fit. -/
def strcat (size : Nat) (destination : String) (source : String) : Option String :=
  if strlen destination + strlen source + 1 ≤ size then some (destination ++ source) else none

/-- The function `Model_TextureFromFile`.  The file name is assembled in
`GLchar filename[100]` before any library call is made. -/
def Model_TextureFromFile (path : String) (directory : String) (gamma : Bool)
    (world : World) : Option (GLuint × World) :=
  match strcpy 100 directory with
  | none => none
  | some filename =>
    match strcat 100 filename path with
    | none => none
    | some filename =>
      let texture_id := world.gl_names world.gl_generated
      let world := world.call (.Model_TextureFromFile path directory)
      let world := { world with gl_generated := world.gl_generated + 1 }
      let world := world.call (.glGenTextures texture_id)
      let world := world.call (.SOIL_load_image filename)
      let world := world.call (.glBindTexture texture_id)
      let world := world.call (.glTexImage2D gamma)
      let world := world.call .glGenerateMipmap
      let world := world.call (.glTexParameteri "GL_TEXTURE_WRAP_S" "GL_REPEAT")
      let world := world.call (.glTexParameteri "GL_TEXTURE_WRAP_T" "GL_REPEAT")
      let world := world.call (.glTexParameteri "GL_TEXTURE_MIN_FILTER" "GL_LINEAR_MIPMAP_LINEAR")
      let world := world.call (.glTexParameteri "GL_TEXTURE_MAG_FILTER" "GL_LINEAR")
      let world := world.call (.glBindTexture 0)
      let world := world.call .SOIL_free_image_data
      some (texture_id, world)

/-- The search loop over `model->textures_loaded[j]`, `j < textures_loaded_count`:
the first entry whose path compares equal to `string`, if any (`skip`). -/
def Model_LoadMaterialTextures.find (textures_loaded : List Texture) (string : String) :
    Nat → Nat → Option (Option Texture)
  | 0, _ => some none
  | remaining + 1, j =>
    match textures_loaded[j]? with
    | none => none
    | some loaded =>
      if loaded.path = string then some (some loaded)
      else Model_LoadMaterialTextures.find textures_loaded string remaining (j + 1)

/-- The variables the loop of `Model_LoadMaterialTextures` updates. -/
structure LoadState where
  model : Model
  textures : List Texture
  k : Nat
  world : World

def Model_LoadMaterialTextures.body (types : Types) (material : aiMaterial)
    (type : aiTextureType) (type_name : String) (i : Nat) (s : LoadState) :
    Option LoadState :=
  match aiGetMaterialTexture material type i with
  | none => none
  | some string =>
    match Model_LoadMaterialTextures.find s.model.textures_loaded string
        s.model.textures_loaded_count 0 with
    | none => none
    | some (some loaded) =>
      match store s.textures s.k loaded with
      | none => none
      | some textures =>
        some { s with textures := textures, k := s.k + 1,
                      world := s.world.heap_op (.write_texture s.k) }
    | some none =>
      match Model_TextureFromFile string s.model.directory false s.world with
      | none => none
      | some (id, world) =>
        match strcpy types.type_size type_name with
        | none => none
        | some label =>
          match store s.textures s.k { id := id, type := label, path := string } with
          | none => none
          | some textures =>
            let world := world.heap_op (.write_texture s.k)
            let textures_loaded :=
              realloc s.model.textures_loaded (s.model.textures_loaded_count + 1)
            match textures[s.k]? with
            | none => none
            | some texture =>
              match store textures_loaded s.model.textures_loaded_count texture with
              | none => none
              | some textures_loaded =>
                some { model := { s.model with
                                    textures_loaded := textures_loaded,
                                    textures_loaded_count := s.model.textures_loaded_count + 1 },
                       textures := textures, k := s.k + 1, world := world }

def Model_LoadMaterialTextures (types : Types) (model : Model) (textures : List Texture)
    (start_index : Nat) (end_index : Nat) (material : aiMaterial) (type : aiTextureType)
    (type_name : String) (world : World) : Option LoadState :=
  let k := start_index
  let texture_type_count := GLuint_sub end_index start_index
  for_loop (Model_LoadMaterialTextures.body types material type type_name) texture_type_count 0
    { model := model, textures := textures, k := k, world := world }

/-- The body of the vertex loop: the value written to `current_mesh->vertices[i]`. -/
def Model_ProcessMesh.vertex (ai_mesh : aiMesh) (i : Nat) : Option Vertex :=
  match ai_mesh.mVertices[i]?, ai_mesh.mNormals[i]?, ai_mesh.mTangents[i]?,
      ai_mesh.mBitangents[i]? with
  | some p, some n, some t, some b =>
    match ai_mesh.mTextureCoords0 with
    | some coords =>
      match coords[i]? with
      | some c => some { position := (p.x, p.y, p.z), normal := (n.x, n.y, n.z),
                         texcoords := (c.x, c.y), tangent := (t.x, t.y, t.z),
                         bitangent := (b.x, b.y, b.z) }
      | none => none
    | none => some { position := (p.x, p.y, p.z), normal := (n.x, n.y, n.z),
                     texcoords := (0, 0), tangent := (t.x, t.y, t.z),
                     bitangent := (b.x, b.y, b.z) }
  | _, _, _, _ => none

def Model_ProcessMesh.vertices (ai_mesh : aiMesh) (vertex_count : Nat) : Option (List Vertex) :=
  for_loop (fun i vertices =>
      match Model_ProcessMesh.vertex ai_mesh i with
      | none => none
      | some v => store vertices i v)
    vertex_count 0 (malloc vertex_count)

/-- The variables of the index loops: `indices`, `index_count`, `current_index_count`. -/
structure IndexState where
  indices : List GLuint
  index_count : Nat
  current_index_count : Nat
deriving DecidableEq

/-- The inner loop `for (j = 0; current_index_count < index_count;
++current_index_count, ++j)`; `fuel` bounds the number of iterations. -/
def Model_ProcessMesh.copy_face (face : aiFace) : Nat → Nat → IndexState → Option IndexState
  | 0, _, s => if s.current_index_count < s.index_count then none else some s
  | fuel + 1, j, s =>
    if s.current_index_count < s.index_count then
      match face.mIndices[j]? with
      | none => none
      | some index =>
        match store s.indices s.current_index_count index with
        | none => none
        | some indices =>
          Model_ProcessMesh.copy_face face fuel (j + 1)
            { s with indices := indices, current_index_count := s.current_index_count + 1 }
    else some s

def Model_ProcessMesh.face (ai_mesh : aiMesh) (i : Nat) (s : IndexState) : Option IndexState :=
  match ai_mesh.mFaces[i]? with
  | none => none
  | some face =>
    let index_count := s.index_count + face.mNumIndices
    let indices := realloc s.indices index_count
    Model_ProcessMesh.copy_face face (index_count - s.current_index_count) 0
      { indices := indices, index_count := index_count,
        current_index_count := s.current_index_count }

def Model_ProcessMesh.indices (ai_mesh : aiMesh) : Option IndexState :=
  for_loop (Model_ProcessMesh.face ai_mesh) ai_mesh.mNumFaces 0
    { indices := [], index_count := 0, current_index_count := 0 }

/-- The material part of `Model_ProcessMesh`: the texture block, its count,
and the model and world after the four loads. -/
def Model_ProcessMesh.textures (types : Types) (model : Model) (ai_mesh : aiMesh)
    (scene : aiScene) (world : World) : Option (Nat × List Texture × Model × World) :=
  if ai_mesh.mMaterialIndex ≥ 0 then
    match scene.mMaterials[ai_mesh.mMaterialIndex]? with
    | none => none
    | some material =>
      let c0 := aiGetMaterialTextureCount material .DIFFUSE
      let c1 := aiGetMaterialTextureCount material .SPECULAR
      let c2 := aiGetMaterialTextureCount material .HEIGHT
      let c3 := aiGetMaterialTextureCount material .AMBIENT
      let texture_count := c0 + c1 + c2 + c3
      let textures : List Texture := malloc texture_count
      match Model_LoadMaterialTextures types model textures 0 c0 material .DIFFUSE
          "texture_diffuse" world with
      | none => none
      | some s0 =>
        match Model_LoadMaterialTextures types s0.model s0.textures c0 (c0 + c1) material .SPECULAR
            "texture_specular" s0.world with
        | none => none
        | some s1 =>
          match Model_LoadMaterialTextures types s1.model s1.textures (c0 + c1) (c0 + c1 + c2)
              material .HEIGHT "texture_normal" s1.world with
          | none => none
          | some s2 =>
            match Model_LoadMaterialTextures types s2.model s2.textures (c0 + c1 + c2) texture_count
                material .AMBIENT "texture_height" s2.world with
            | none => none
            | some s3 => some (texture_count, s3.textures, s3.model, s3.world)
  else some (0, [], model, world)

def Model_ProcessMesh (types : Types) (model : Model) (ai_mesh : aiMesh) (scene : aiScene)
    (world : World) : Option (Model × World) :=
  if model.mesh_count < model.meshes.length then
    let world := world.heap_op (.write_mesh model.mesh_count model.meshes.length)
    let vertex_count := ai_mesh.mNumVertices
    match Model_ProcessMesh.vertices ai_mesh vertex_count with
    | none => none
    | some vertices =>
      match Model_ProcessMesh.indices ai_mesh with
      | none => none
      | some ix =>
        match Model_ProcessMesh.textures types model ai_mesh scene world with
        | none => none
        | some (texture_count, textures, model, world) =>
          let current_mesh : Mesh :=
            { vertex_count := vertex_count, vertices := vertices,
              index_count := ix.index_count, indices := ix.indices,
              texture_count := texture_count, textures := textures }
          let world := world.call (.Mesh_Setup current_mesh)
          some ({ model with meshes := model.meshes.set model.mesh_count current_mesh,
                             mesh_count := model.mesh_count + 1 }, world)
  else none

/-- The body of the mesh loop of `Model_ProcessNode`. -/
def Model_ProcessNode.mesh (types : Types) (mMeshes : List Nat) (scene : aiScene) (i : Nat)
    (s : Model × World) : Option (Model × World) :=
  match mMeshes[i]? with
  | none => none
  | some index =>
    match scene.mMeshes[index]? with
    | none => none
    | some ai_mesh => Model_ProcessMesh types s.1 ai_mesh scene s.2

mutual
def Model_ProcessNode (types : Types) (scene : aiScene) :
    aiNode → Model × World → Option (Model × World)
  | .mk mNumMeshes mMeshes mNumChildren mChildren, (model, world) =>
    let requested := GLuint_add model.mesh_count mNumMeshes
    let world := world.heap_op (.realloc_meshes model.mesh_count requested)
    let model := { model with meshes := realloc model.meshes requested }
    match for_loop (Model_ProcessNode.mesh types mMeshes scene) mNumMeshes 0 (model, world) with
    | none => none
    | some s => Model_ProcessNode.children types scene mNumChildren mChildren s
/-- The child loop of `Model_ProcessNode`: `remaining` children are still to be
visited and `children` is the block from `node->mChildren[i]` on. -/
def Model_ProcessNode.children (types : Types) (scene : aiScene) :
    Nat → List aiNode → Model × World → Option (Model × World)
  | 0, _, s => some s
  | _ + 1, [], _ => none
  | remaining + 1, child :: rest, s =>
    match Model_ProcessNode types scene child s with
    | none => none
    | some s => Model_ProcessNode.children types scene remaining rest s
end

/-- The scan behind `strrchr`: `i` is the offset of the head of the remaining
characters and `last` the offset of the last occurrence seen so far. -/
def strrchr.scan (c : Char) : List Char → Nat → Option Nat → Option Nat
  | [], _, last => last
  | x :: rest, i, last => strrchr.scan c rest (i + 1) (if x = c then some i else last)

/-- The C library function `strrchr`: the offset of the last occurrence of `c`
in the string, `none` for the null pointer it returns when there is none.  The
code searches for `'/'`, a single byte that is part of no longer UTF-8
sequence, so the last `/` among the characters is the last such byte. -/
def strrchr (s : List Char) (c : Char) : Option Nat :=
  strrchr.scan c s 0 none

/-- The copy loop of `Model_Load`, at offset `i` with `rest` the characters of
`model_source` from `i` on and `directory` the characters written so far.
`directory_length` is the offset the loop stops at, `none` when it lies
outside the string (`strrchr` returned null).  The bytes of a character are
written into `model->directory`, an array of `directory_size` bytes, behind
those written so far.  At the end of the string the terminator is still inside
the source block; the next read is not. -/
def Model_Load.copy (directory_size : Nat) (directory_length : Option Nat) :
    List Char → Nat → List Char → Option (List Char)
  | [], i, directory => if some i = directory_length then some directory else none
  | c :: rest, i, directory =>
    if some i = directory_length then some directory
    else if byte_count (directory ++ [c]) ≤ directory_size then
      Model_Load.copy directory_size directory_length rest (i + 1) (directory ++ [c])
    else none

/-- The directory part of `Model_Load`: `strrchr`, the copy loop, and the
terminator written by `model->directory[i] = 0`. -/
def Model_Load.directory (types : Types) (model_source : String) : Option String :=
  let directory_length := (strrchr model_source.data '/').map (· + 1)
  match Model_Load.copy types.directory_size directory_length model_source.data 0 [] with
  | none => none
  | some directory =>
    if byte_count directory < types.directory_size then some (String.mk directory) else none

/-- The function `Model_Load`; `aiImportFile` is the importer (`none` is a null scene). -/
def Model_Load (types : Types) (aiImportFile : String → Option aiScene)
    (model_source : String) (world : World) : Option (Model × World) :=
  let model : Model :=
    { mesh_count := 0, meshes := [], textures_loaded := [], textures_loaded_count := 0,
      directory := default }
  let scene := aiImportFile model_source
  match Model_Load.directory types model_source with
  | none => none
  | some directory =>
    let model := { model with directory := directory }
    match scene with
    | none => none
    | some scene => Model_ProcessNode types scene scene.mRootNode (model, world)

/-- The body of the loop of `Model_Render`. -/
def Model_Render.mesh (shader_prog : GLuint) (i : Nat) (s : Model × World) :
    Option (Model × World) :=
  match s.1.meshes[i]? with
  | none => none
  | some mesh => some (s.1, s.2.call (.Mesh_Render mesh shader_prog))

/-- The function `Model_Render`.  The body only reads the model; the model is
returned next to the world to make that visible. -/
def Model_Render (model : Model) (shader_prog : GLuint) (world : World) :
    Option (Model × World) :=
  for_loop (Model_Render.mesh shader_prog) model.mesh_count 0 (model, world)

/-! ## The event loop of `main.c` -/

structure SDL_Event where
  type : Nat
deriving DecidableEq

def SDL_QUIT : Nat := 0x100

/-- The state of the loop after an iteration. -/
inductive LoopState where
  | running
  | quit
deriving DecidableEq

/-- One iteration of `while (1)`.  `poll` is the outcome of `SDL_PollEvent`:
`none` when it returns 0, `some event` when it returns 1 and fills `event`. -/
def main.iteration (nanosuit : Model) (nanosuit_program : GLuint) (poll : Option SDL_Event)
    (world : World) : Option (LoopState × World) :=
  let quit : Bool :=
    match poll with
    | some event => event.type = SDL_QUIT
    | none => false
  if quit then some (.quit, world)
  else
    let world := world.call .glClear
    let world := world.call (.glUseProgram nanosuit_program)
    let world := world.call (.Camera_Render nanosuit_program)
    match Model_Render nanosuit nanosuit_program world with
    | none => none
    | some (_, world) =>
      let world := world.call (.glUseProgram 0)
      let world := world.call .SDL_GL_SwapWindow
      some (.running, world)

/-- The loop of `main` run against the outcomes of the successive
`SDL_PollEvent` calls.  The result is the loop state reached, the world, and
the number of polls made. -/
def main.loop (nanosuit : Model) (nanosuit_program : GLuint) :
    List (Option SDL_Event) → World → Nat → Option (LoopState × World × Nat)
  | [], world, polled => some (.running, world, polled)
  | poll :: polls, world, polled =>
    match main.iteration nanosuit nanosuit_program poll world with
    | none => none
    | some (.quit, world) => some (.quit, world, polled + 1)
    | some (.running, world) => main.loop nanosuit nanosuit_program polls world (polled + 1)

/-! ## Vocabulary of the statements -/

/-- The index list of a face: the `mNumIndices` entries at `mIndices`. -/
def aiFace.indices (face : aiFace) : List Nat := face.mIndices.take face.mNumIndices

/-- The faces of a source mesh: the `mNumFaces` entries at `mFaces`. -/
def aiMesh.faces (ai_mesh : aiMesh) : List aiFace := ai_mesh.mFaces.take ai_mesh.mNumFaces

/-- The index state reached when the first `i` faces have been copied. -/
def indices_after (ai_mesh : aiMesh) (i : Nat) : IndexState :=
  let copied := ((ai_mesh.mFaces.take i).map aiFace.indices).flatten
  { indices := copied, index_count := copied.length, current_index_count := copied.length }

/-- The arrays of a source mesh are as long as its counts say. -/
def aiMesh.WellFormed (ai_mesh : aiMesh) : Prop :=
  ai_mesh.mNumVertices ≤ ai_mesh.mVertices.length ∧
  ai_mesh.mNumVertices ≤ ai_mesh.mNormals.length ∧
  ai_mesh.mNumVertices ≤ ai_mesh.mTangents.length ∧
  ai_mesh.mNumVertices ≤ ai_mesh.mBitangents.length ∧
  (∀ coords ∈ ai_mesh.mTextureCoords0, ai_mesh.mNumVertices ≤ coords.length) ∧
  ai_mesh.mNumFaces ≤ ai_mesh.mFaces.length ∧
  ∀ face ∈ ai_mesh.faces, face.mNumIndices ≤ face.mIndices.length

instance (ai_mesh : aiMesh) : Decidable ai_mesh.WellFormed := by
  unfold aiMesh.WellFormed; infer_instance

/-- The file name `directory` followed by `path`, with its terminator, fits
`GLchar filename[100]`. -/
def NameFits (directory : String) (path : String) : Prop :=
  strlen directory + strlen path + 1 ≤ 100

instance (directory : String) (path : String) : Decidable (NameFits directory path) := by
  unfold NameFits; infer_instance

/-- The four type labels `Model_ProcessMesh` passes, with their terminators,
fit the `type` array of `struct Texture`. -/
def LabelsFit (types : Types) : Prop :=
  strlen "texture_diffuse" + 1 ≤ types.type_size ∧
  strlen "texture_specular" + 1 ≤ types.type_size ∧
  strlen "texture_normal" + 1 ≤ types.type_size ∧
  strlen "texture_height" + 1 ≤ types.type_size

instance (types : Types) : Decidable (LabelsFit types) := by
  unfold LabelsFit; infer_instance

/-- The paths stored in the first `textures_loaded_count` entries of
`model->textures_loaded`. -/
def Model.loaded_paths (model : Model) : List String :=
  (model.textures_loaded.take model.textures_loaded_count).map Texture.path

/-- The `path` arguments of the calls of `Model_TextureFromFile`, in call order. -/
def texture_loads (calls : List Call) : List String :=
  calls.filterMap fun c =>
    match c with
    | .Model_TextureFromFile path _ => some path
    | _ => none

/-- The arguments of the calls of `Mesh_Setup`, in call order. -/
def mesh_setups (calls : List Call) : List Mesh :=
  calls.filterMap fun c =>
    match c with
    | .Mesh_Setup mesh => some mesh
    | _ => none

/-- The texture paths a material offers under the four queried types, in the
order the code queries them. -/
def aiMaterial.queried_paths (material : aiMaterial) : List String :=
  material.textures .DIFFUSE ++ material.textures .SPECULAR ++ material.textures .HEIGHT ++
    material.textures .AMBIENT

/-- Between the two states the texture paths in `new` were loaded: they are
taken from `paths`, none was loaded before, none occurs twice, each is
appended to the loaded textures with one call of `Model_TextureFromFile`, and
afterwards every path of `paths` is loaded. -/
def PathsLoaded (m : Model) (w : World) (paths : List String) (m' : Model) (w' : World) : Prop :=
  ∃ new : List String,
    m'.loaded_paths = m.loaded_paths ++ new ∧
    texture_loads w'.calls = texture_loads w.calls ++ new ∧
    new.Nodup ∧ (∀ p ∈ new, p ∈ paths ∧ p ∉ m.loaded_paths) ∧
    ∀ p ∈ paths, p ∈ m.loaded_paths ++ new

/-- What a run of texture loading changes: the model keeps its meshes and
directory, the heap record grows by `ops`, no mesh is set up, and the paths
`paths` are loaded as in `PathsLoaded`. -/
def Loaded (m : Model) (w : World) (paths : List String) (ops : List HeapOp) (m' : Model)
    (w' : World) : Prop :=
  m'.mesh_count = m.mesh_count ∧ m'.meshes = m.meshes ∧ m'.directory = m.directory ∧
  m'.textures_loaded_count ≤ m'.textures_loaded.length ∧
  w'.heap = w.heap ++ ops ∧ mesh_setups w'.calls = mesh_setups w.calls ∧
  PathsLoaded m w paths m' w'

/-- The call of `Model_LoadMaterialTextures` on the block `textures` with the
range `start_index .. end_index` returns the state `s'`: its cursor `k` ends
at `end_index`, it has written the slots `start_index .. end_index - 1`, each
once and in this order, and no other slot; the block keeps its size and its
entries outside the range; and slot `start_index + i` holds a texture whose
path is the path of the material's `i`-th texture of the type. -/
def Fills (types : Types) (model : Model) (textures : List Texture) (world : World)
    (start_index : Nat) (end_index : Nat) (material : aiMaterial) (type : aiTextureType)
    (type_name : String) (s' : LoadState) : Prop :=
  Model_LoadMaterialTextures types model textures start_index end_index material type
      type_name world = some s' ∧
  s'.k = end_index ∧
  s'.world.heap = world.heap ++
    (List.range' start_index (end_index - start_index)).map HeapOp.write_texture ∧
  s'.textures.length = textures.length ∧
  (∀ j, j < start_index ∨ end_index ≤ j → s'.textures[j]? = textures[j]?) ∧
  ∀ i, i < end_index - start_index →
    (s'.textures[start_index + i]?).map Texture.path = (material.textures type)[i]?

/-- Vertex `v` is the copy of vertex `i` of the source mesh: position, normal,
tangent and bitangent component for component, and the texture coordinates of
channel 0 when the channel is present, `(0, 0)` when it is absent. -/
def Vertex.Copies (v : Vertex) (ai_mesh : aiMesh) (i : Nat) : Prop :=
  (∃ p, ai_mesh.mVertices[i]? = some p ∧ v.position = (p.x, p.y, p.z)) ∧
  (∃ n, ai_mesh.mNormals[i]? = some n ∧ v.normal = (n.x, n.y, n.z)) ∧
  (∃ t, ai_mesh.mTangents[i]? = some t ∧ v.tangent = (t.x, t.y, t.z)) ∧
  (∃ b, ai_mesh.mBitangents[i]? = some b ∧ v.bitangent = (b.x, b.y, b.z)) ∧
  (∀ coords, ai_mesh.mTextureCoords0 = some coords →
    ∃ c, coords[i]? = some c ∧ v.texcoords = (c.x, c.y)) ∧
  (ai_mesh.mTextureCoords0 = none → v.texcoords = (0, 0))

/-- Mesh `mesh` is the transcription of the source mesh `ai_mesh` with
material `material`: same vertices, the faces' index lists one after the
other, and one texture per queried texture path of the material, in order. -/
def Transcription (ai_mesh : aiMesh) (material : aiMaterial) (mesh : Mesh) : Prop :=
  mesh.vertex_count = ai_mesh.mNumVertices ∧
  mesh.vertices.length = ai_mesh.mNumVertices ∧
  (∀ i, i < ai_mesh.mNumVertices → ∃ v, mesh.vertices[i]? = some v ∧ v.Copies ai_mesh i) ∧
  mesh.index_count = (ai_mesh.faces.map aiFace.mNumIndices).sum ∧
  mesh.indices = (ai_mesh.faces.map aiFace.indices).flatten ∧
  mesh.texture_count = material.queried_paths.length ∧
  mesh.textures.map Texture.path = material.queried_paths

/-- Mesh `mesh` is the transcription of scene mesh number `index`. -/
def Transcribed (scene : aiScene) (index : Nat) (mesh : Mesh) : Prop :=
  ∃ ai_mesh material, scene.mMeshes[index]? = some ai_mesh ∧
    scene.mMaterials[ai_mesh.mMaterialIndex]? = some material ∧
    Transcription ai_mesh material mesh

/-- The indices of the writes into the mesh block, in program order. -/
def mesh_writes (ops : List HeapOp) : List Nat :=
  ops.filterMap fun op =>
    match op with
    | .write_mesh index _ => some index
    | _ => none

/-- The resize keeps the meshes stored so far, and the write lies inside the block. -/
def HeapOp.Safe : HeapOp → Prop
  | .realloc_meshes mesh_count requested => mesh_count ≤ requested
  | .write_mesh index capacity => index < capacity
  | .write_texture _ => True

mutual
/-- The depth-first pre-order flattening of the tree below a node: the mesh
references of the node in index order, then the flattening of each child in
child order. -/
def aiNode.references : aiNode → List Nat
  | .mk mNumMeshes mMeshes mNumChildren mChildren =>
    mMeshes.take mNumMeshes ++ aiNode.references_children mNumChildren mChildren
/-- The flattenings of the first `count` nodes of a block of children, one
after the other. -/
def aiNode.references_children : Nat → List aiNode → List Nat
  | 0, _ => []
  | _ + 1, [] => []
  | count + 1, child :: rest => child.references ++ aiNode.references_children count rest
end

mutual
/-- The sum of `mNumMeshes` over all nodes of the tree below a node. -/
def aiNode.total_meshes : aiNode → Nat
  | .mk mNumMeshes _ mNumChildren mChildren =>
    mNumMeshes + aiNode.total_meshes_children mNumChildren mChildren
def aiNode.total_meshes_children : Nat → List aiNode → Nat
  | 0, _ => 0
  | _ + 1, [] => 0
  | count + 1, child :: rest => child.total_meshes + aiNode.total_meshes_children count rest
end

/-- Scene mesh number `index` exists, its arrays are as long as its counts say,
and its material exists. -/
def aiScene.mesh_ok (scene : aiScene) (index : Nat) : Bool :=
  match scene.mMeshes[index]? with
  | none => false
  | some ai_mesh =>
    decide ai_mesh.WellFormed && decide (ai_mesh.mMaterialIndex < scene.mMaterials.length)

mutual
/-- A well-formed tree: in every node the mesh and child blocks are as long as
the counts say, and every mesh reference is a mesh of the scene that is itself
well formed. -/
def aiNode.well_formed (scene : aiScene) : aiNode → Bool
  | .mk mNumMeshes mMeshes mNumChildren mChildren =>
    decide (mNumMeshes ≤ mMeshes.length) && (mMeshes.take mNumMeshes).all scene.mesh_ok &&
      aiNode.well_formed_children scene mNumChildren mChildren
def aiNode.well_formed_children (scene : aiScene) : Nat → List aiNode → Bool
  | 0, _ => true
  | _ + 1, [] => false
  | count + 1, child :: rest =>
    child.well_formed scene && aiNode.well_formed_children scene count rest
end

/-- The queried texture paths of the material of scene mesh number `index`. -/
def aiScene.mesh_paths (scene : aiScene) (index : Nat) : List String :=
  match scene.mMeshes[index]? with
  | none => []
  | some ai_mesh =>
    match scene.mMaterials[ai_mesh.mMaterialIndex]? with
    | none => []
    | some material => material.queried_paths

/-- The texture paths referenced, under the four queried types, by the
materials of the given scene meshes, in processing order. -/
def aiScene.paths (scene : aiScene) (refs : List Nat) : List String :=
  (refs.map scene.mesh_paths).flatten

/-- What processing the scene meshes `refs` changes: the directory is kept, the
meshes stored so far are kept and the transcriptions `added` of `refs` follow
them, each set up once in that order; every heap operation is safe, and the
mesh block is written once per mesh, at the successive indices from the old
`mesh_count` on; and the texture paths of the materials of `refs` are loaded
as in `PathsLoaded`. -/
def Processed (scene : aiScene) (m : Model) (w : World) (refs : List Nat) (m' : Model)
    (w' : World) : Prop :=
  m'.directory = m.directory ∧
  m'.mesh_count = m.mesh_count + refs.length ∧
  m'.mesh_count ≤ m'.meshes.length ∧
  m'.textures_loaded_count ≤ m'.textures_loaded.length ∧
  (∃ added, m'.meshes.take m'.mesh_count = m.meshes.take m.mesh_count ++ added ∧
    List.Forall₂ (Transcribed scene) refs added ∧
    mesh_setups w'.calls = mesh_setups w.calls ++ added) ∧
  (∃ ops, w'.heap = w.heap ++ ops ∧ (∀ op ∈ ops, op.Safe) ∧
    mesh_writes ops = List.range' m.mesh_count refs.length) ∧
  PathsLoaded m w (scene.paths refs) m' w'

/-- The world after the calls `cs` have been made. -/
def World.after (world : World) (cs : List Call) : World :=
  { world with calls := world.calls ++ cs }

/-- The calls one `Model_Render` makes: `Mesh_Render` for each of the
`mesh_count` meshes, in array order, with the given shader program. -/
def render_calls (model : Model) (shader_prog : GLuint) : List Call :=
  (model.meshes.take model.mesh_count).map (fun mesh => Call.Mesh_Render mesh shader_prog)

/-- The calls of one drawn frame: clear, use program, camera, model, unuse
program, swap. -/
def frame_calls (nanosuit : Model) (nanosuit_program : GLuint) : List Call :=
  [.glClear, .glUseProgram nanosuit_program, .Camera_Render nanosuit_program] ++
    render_calls nanosuit nanosuit_program ++ [.glUseProgram 0, .SDL_GL_SwapWindow]

/-- The poll returned an event, and the event is of type quit. -/
def is_quit (poll : Option SDL_Event) : Prop :=
  poll.map SDL_Event.type = some SDL_QUIT

instance (poll : Option SDL_Event) : Decidable (is_quit poll) := by
  unfold is_quit; infer_instance

/-- The number of frames presented: the `SDL_GL_SwapWindow` calls. -/
def frames_presented (calls : List Call) : Nat :=
  calls.count .SDL_GL_SwapWindow

/-! ## Sample inputs -/

def sample_vector (a : Int) : aiVector3D := { x := a, y := a + 1, z := a + 2 }

/-- Two vertices with texture coordinates, a triangle-like face and a line. -/
def sample_mesh : aiMesh :=
  { mNumVertices := 2,
    mVertices := [sample_vector 0, sample_vector 10],
    mNormals := [sample_vector 1, sample_vector 11],
    mTextureCoords0 := some [sample_vector 2, sample_vector 12],
    mTangents := [sample_vector 3, sample_vector 13],
    mBitangents := [sample_vector 4, sample_vector 14],
    mNumFaces := 2,
    mFaces := [{ mNumIndices := 3, mIndices := [0, 1, 0] }, { mNumIndices := 2, mIndices := [1, 1] }],
    mMaterialIndex := 0 }

/-- A material that uses the file `a.png` both as a diffuse and as a specular texture. -/
def sample_material : aiMaterial :=
  { textures := fun type =>
      match type with
      | .DIFFUSE => ["a.png", "b.png"]
      | .SPECULAR => ["a.png"]
      | .HEIGHT => ["n.png"]
      | _ => [] }

/-- A root node with one mesh reference and one child with two. -/
def sample_scene : aiScene :=
  { mRootNode := .mk 1 [0] 1 [.mk 2 [0, 0] 0 []],
    mMeshes := [sample_mesh],
    mMaterials := [sample_material] }

/-- Sample array sizes for `directory` and `type`. -/
def sample_types : Types :=
  { directory_size := 64, type_size := 32 }

def sample_world : World :=
  { calls := [], heap := [], gl_names := fun n => n + 1, gl_generated := 0 }

def sample_source : String := "Objects/Nanosuit/nanosuit.obj"

def sample_import : String → Option aiScene := fun _ => some sample_scene

/-- A model with no mesh stored and a block of one free element. -/
def sample_model : Model :=
  { mesh_count := 0, meshes := [default], textures_loaded := [], textures_loaded_count := 0,
    directory := "Objects/Nanosuit/" }

/-- A model with nothing stored. -/
def sample_empty : Model :=
  { mesh_count := 0, meshes := [], textures_loaded := [], textures_loaded_count := 0,
    directory := "Objects/Nanosuit/" }

/-- A model with one mesh stored. -/
def sample_stored : Model :=
  { mesh_count := 1, meshes := [default], textures_loaded := [], textures_loaded_count := 0,
    directory := "Objects/Nanosuit/" }

/-- A texture path of 120 bytes. -/
def sample_long_path : String :=
  "textures/characters/nanosuit/high_resolution/body/nanosuit_body_upper_torso_diffuse_albedo_4096x4096_final_version_2.png"

/-- The sample material with the long path as its first diffuse texture. -/
def sample_long_material : aiMaterial :=
  { textures := fun type =>
      match type with
      | .DIFFUSE => [sample_long_path, "b.png"]
      | .SPECULAR => ["a.png"]
      | .HEIGHT => ["n.png"]
      | _ => [] }

/-- The sample scene with the long-path material. -/
def sample_long_scene : aiScene :=
  { mRootNode := .mk 1 [0] 1 [.mk 2 [0, 0] 0 []],
    mMeshes := [sample_mesh],
    mMaterials := [sample_long_material] }

def sample_long_import : String → Option aiScene := fun _ => some sample_long_scene

/-! ## Loops, blocks and strings -/

theorem for_loop_invariant {σ : Type} (body : Nat → σ → Option σ) (P : Nat → σ → Prop) :
    ∀ (n first : Nat) (s : σ), P first s →
      (∀ i t, first ≤ i → i < first + n → P i t → ∃ t', body i t = some t' ∧ P (i + 1) t') →
      ∃ s', for_loop body n first s = some s' ∧ P (first + n) s' := by
  intro n
  induction n with
  | zero => intro first s h _; exact ⟨s, rfl, by simpa using h⟩
  | succ n ih =>
    intro first s h hstep
    obtain ⟨t, ht, hP⟩ := hstep first s (Nat.le_refl _) (by omega) h
    obtain ⟨s', hs', hP'⟩ := ih (first + 1) t hP (fun i u h1 h2 hu => hstep i u (by omega) (by omega) hu)
    refine ⟨s', ?_, ?_⟩
    · simp [for_loop, ht, hs']
    · have : first + (n + 1) = first + 1 + n := by omega
      rw [this]; exact hP'

theorem realloc_grow {α : Type} [Inhabited α] (block : List α) (extra : Nat) :
    realloc block (block.length + extra) = block ++ List.replicate extra default := by
  simp [realloc]

theorem store_append {α : Type} (front back : List α) (old v : α) :
    store (front ++ old :: back) front.length v = some (front ++ v :: back) := by
  simp [store]

theorem getElem?_append_cons {α : Type} (front back : List α) (v : α) :
    (front ++ v :: back)[front.length]? = some v := by
  rw [List.getElem?_append_right (Nat.le_refl _)]
  simp

theorem vertices_loop (ai_mesh : aiMesh) (n : Nat)
    (h : ∀ i, i < n → ∃ v, Model_ProcessMesh.vertex ai_mesh i = some v) :
    ∃ vs, Model_ProcessMesh.vertices ai_mesh n = some vs ∧ vs.length = n ∧
      ∀ i, i < n → vs[i]? = Model_ProcessMesh.vertex ai_mesh i := by
  have := for_loop_invariant (fun i vertices =>
      match Model_ProcessMesh.vertex ai_mesh i with
      | none => none
      | some v => store vertices i v)
    (fun i vs => vs.length = n ∧ ∀ j, j < i → vs[j]? = Model_ProcessMesh.vertex ai_mesh j)
    n 0 (malloc n) ⟨by simp [malloc], by intro j hj; omega⟩
    (by
      intro i t _ hi ⟨hlen, hpre⟩
      obtain ⟨v, hv⟩ := h i (by omega)
      refine ⟨t.set i v, ?_, ?_, ?_⟩
      · simp [hv, store]; omega
      · simpa using hlen
      · intro j hj
        by_cases hji : j = i
        · subst hji; simp [hv, List.getElem?_set]; omega
        · rw [List.getElem?_set_ne (by omega)]; exact hpre j (by omega))
  obtain ⟨vs, h1, h2, h3⟩ := this
  exact ⟨vs, h1, h2, by simpa using h3⟩

theorem copy_face_spec (face : aiFace) :
    ∀ (r j : Nat) (front pad : List Nat), j + r ≤ face.mIndices.length → pad.length = r →
      Model_ProcessMesh.copy_face face r j
          { indices := front ++ pad, index_count := front.length + r,
            current_index_count := front.length } =
        some { indices := front ++ (face.mIndices.drop j).take r,
               index_count := front.length + r,
               current_index_count := front.length + r } := by
  intro r
  induction r with
  | zero =>
    intro j front pad _ hpad
    have : pad = [] := List.length_eq_zero.mp hpad
    simp [Model_ProcessMesh.copy_face, this]
  | succ r ih =>
    intro j front pad hj hpad
    obtain ⟨old, pad', rfl⟩ : ∃ old pad', pad = old :: pad' := by
      cases pad with
      | nil => simp at hpad
      | cons a l => exact ⟨a, l, rfl⟩
    have hlt : j < face.mIndices.length := by omega
    have hget : face.mIndices[j]? = some face.mIndices[j] := List.getElem?_eq_getElem hlt
    have hdrop : face.mIndices.drop j = face.mIndices[j] :: face.mIndices.drop (j + 1) :=
      List.drop_eq_getElem_cons hlt
    have hrec := ih (j + 1) (front ++ [face.mIndices[j]]) pad' (by omega) (by simpa using hpad)
    simp only [List.length_append, List.length_singleton, List.append_assoc,
      List.singleton_append] at hrec
    have e1 : front.length + 1 + r = front.length + (r + 1) := by omega
    rw [e1] at hrec
    simp only [Model_ProcessMesh.copy_face, hget, store_append, hdrop, List.take_succ_cons]
    simp only [Nat.lt_add_right_iff_pos, Nat.succ_pos, if_true, Nat.zero_lt_succ]
    exact hrec

theorem face_spec (ai_mesh : aiMesh) (i : Nat) (face : aiFace)
    (hface : ai_mesh.mFaces[i]? = some face) (hwf : face.mNumIndices ≤ face.mIndices.length) :
    Model_ProcessMesh.face ai_mesh i (indices_after ai_mesh i) =
      some (indices_after ai_mesh (i + 1)) := by
  have hi : i < ai_mesh.mFaces.length := by
    rcases Nat.lt_or_ge i ai_mesh.mFaces.length with h | h
    · exact h
    · simp [List.getElem?_eq_none h] at hface
  have htake : ai_mesh.mFaces.take (i + 1) = ai_mesh.mFaces.take i ++ [face] := by
    rw [List.take_succ, hface]; rfl
  have hlen : face.indices.length = face.mNumIndices := by
    simp [aiFace.indices, hwf]
  have h := copy_face_spec face face.mNumIndices 0
    ((ai_mesh.mFaces.take i).map aiFace.indices).flatten
    (List.replicate face.mNumIndices default) (by omega) (by simp)
  simp only [Model_ProcessMesh.face, hface, indices_after, realloc_grow, Nat.add_sub_cancel_left]
  rw [h, htake]
  simp [aiFace.indices, hwf]

theorem indices_spec (ai_mesh : aiMesh) (hn : ai_mesh.mNumFaces ≤ ai_mesh.mFaces.length)
    (hwf : ∀ face ∈ ai_mesh.faces, face.mNumIndices ≤ face.mIndices.length) :
    Model_ProcessMesh.indices ai_mesh = some (indices_after ai_mesh ai_mesh.mNumFaces) := by
  obtain ⟨s, hs, hP⟩ := for_loop_invariant (Model_ProcessMesh.face ai_mesh)
    (fun i s => s = indices_after ai_mesh i) ai_mesh.mNumFaces 0
    { indices := [], index_count := 0, current_index_count := 0 }
    (by simp [indices_after])
    (by
      intro i t _ hi ht
      subst ht
      have hlt : i < ai_mesh.mFaces.length := by omega
      have hget : ai_mesh.mFaces[i]? = some ai_mesh.mFaces[i] := List.getElem?_eq_getElem hlt
      refine ⟨_, face_spec ai_mesh i _ hget (hwf _ ?_), rfl⟩
      rw [aiMesh.faces, List.mem_take_iff_getElem]
      exact ⟨i, by omega, rfl⟩)
  rw [Model_ProcessMesh.indices, hs, hP]; simp

theorem loaded_refl (m : Model) (w : World)
    (h : m.textures_loaded_count ≤ m.textures_loaded.length) : Loaded m w [] [] m w :=
  ⟨rfl, rfl, rfl, h, by simp, rfl, [], by simp, by simp, List.nodup_nil, by simp, by simp⟩

theorem paths_loaded_trans {m m1 m2 : Model} {w w1 w2 : World} {ps1 ps2 : List String}
    (h1 : PathsLoaded m w ps1 m1 w1) (h2 : PathsLoaded m1 w1 ps2 m2 w2) :
    PathsLoaded m w (ps1 ++ ps2) m2 w2 := by
  obtain ⟨new1, b1, b2, b3, b4, b5⟩ := h1
  obtain ⟨new2, d1, d2, d3, d4, d5⟩ := h2
  refine ⟨new1 ++ new2, ?_, ?_, ?_, ?_, ?_⟩
  · rw [d1, b1, List.append_assoc]
  · rw [d2, b2, List.append_assoc]
  · rw [List.nodup_append]
    refine ⟨b3, d3, ?_⟩
    intro p hp1 hp2
    exact (d4 p hp2).2 (by rw [b1]; exact List.mem_append_right _ hp1)
  · intro p hp
    rcases List.mem_append.mp hp with hp | hp
    · exact ⟨List.mem_append_left _ (b4 p hp).1, (b4 p hp).2⟩
    · refine ⟨List.mem_append_right _ (d4 p hp).1, fun hm => (d4 p hp).2 ?_⟩
      rw [b1]; exact List.mem_append_left _ hm
  · intro p hp
    rcases List.mem_append.mp hp with hp | hp
    · have := b5 p hp
      simp only [List.mem_append] at this ⊢
      tauto
    · have := d5 p hp
      rw [b1] at this
      simp only [List.mem_append] at this ⊢
      tauto

theorem loaded_trans {m m1 m2 : Model} {w w1 w2 : World} {ps1 ps2 : List String}
    {ops1 ops2 : List HeapOp} (h1 : Loaded m w ps1 ops1 m1 w1)
    (h2 : Loaded m1 w1 ps2 ops2 m2 w2) : Loaded m w (ps1 ++ ps2) (ops1 ++ ops2) m2 w2 := by
  obtain ⟨a1, a2, a3, _, a5, a6, a7⟩ := h1
  obtain ⟨c1, c2, c3, c4, c5, c6, c7⟩ := h2
  exact ⟨c1.trans a1, c2.trans a2, c3.trans a3, c4, by rw [c5, a5, List.append_assoc],
    c6.trans a6, paths_loaded_trans a7 c7⟩

theorem find_spec (textures_loaded : List Texture) (string : String) :
    ∀ (r j : Nat), j + r ≤ textures_loaded.length →
      Model_LoadMaterialTextures.find textures_loaded string r j =
        some (((textures_loaded.drop j).take r).find? (fun t => decide (t.path = string))) := by
  intro r
  induction r with
  | zero => intro j _; simp [Model_LoadMaterialTextures.find]
  | succ r ih =>
    intro j hj
    have hlt : j < textures_loaded.length := by omega
    have hget : textures_loaded[j]? = some textures_loaded[j] := List.getElem?_eq_getElem hlt
    have hdrop : textures_loaded.drop j = textures_loaded[j] :: textures_loaded.drop (j + 1) :=
      List.drop_eq_getElem_cons hlt
    simp only [Model_LoadMaterialTextures.find, hget, hdrop, List.take_succ_cons, List.find?_cons]
    by_cases hp : textures_loaded[j].path = string
    · simp [hp]
    · simp [hp, ih (j + 1) (by omega)]

theorem realloc_store_take (textures_loaded : List Texture) (count : Nat) (texture : Texture)
    (h : count ≤ textures_loaded.length) :
    ∃ block, store (realloc textures_loaded (count + 1)) count texture = some block ∧
      block.length = count + 1 ∧ block.take (count + 1) = textures_loaded.take count ++ [texture] := by
  have hlen : (realloc textures_loaded (count + 1)).length = count + 1 := by
    simp [realloc]; omega
  refine ⟨(realloc textures_loaded (count + 1)).set count texture, ?_, ?_, ?_⟩
  · simp [store, hlen]
  · simpa using hlen
  · apply List.ext_getElem?
    intro i
    rcases Nat.lt_trichotomy i count with hi | hi | hi
    · rw [List.getElem?_take_of_lt (by omega), List.getElem?_set_ne (by omega),
        List.getElem?_append_left (by simp; omega), List.getElem?_take_of_lt hi]
      simp only [realloc]
      rw [List.getElem?_append_left (by simp; omega), List.getElem?_take_of_lt (by omega)]
    · subst hi
      rw [List.getElem?_take_of_lt (by omega), List.getElem?_set_self (by omega)]
      simp [List.getElem?_append_right, h]
    · rw [List.getElem?_eq_none (by simp; omega), List.getElem?_eq_none (by simp; omega)]

theorem Model_TextureFromFile_spec (path directory : String) (gamma : Bool) (w : World)
    (hfit : NameFits directory path) :
    ∃ id w', Model_TextureFromFile path directory gamma w = some (id, w') ∧
      texture_loads w'.calls = texture_loads w.calls ++ [path] ∧
      mesh_setups w'.calls = mesh_setups w.calls ∧ w'.heap = w.heap ∧
      Call.SOIL_load_image (directory ++ path) ∈ w'.calls := by
  have h1 : strcpy 100 directory = some directory := by
    unfold NameFits at hfit
    have : strlen directory + 1 ≤ 100 := by omega
    simp [strcpy, this]
  have h2 : strcat 100 directory path = some (directory ++ path) := by
    unfold NameFits at hfit
    simp [strcat, hfit]
  simp only [Model_TextureFromFile, h1, h2]
  refine ⟨_, _, rfl, ?_, ?_, ?_, ?_⟩
  · simp [World.call, texture_loads, List.filterMap_append]
  · simp [World.call, mesh_setups, List.filterMap_append]
  · simp [World.call]
  · simp [World.call]

theorem body_spec (types : Types) (material : aiMaterial) (type : aiTextureType)
    (type_name : String) (i : Nat)
    (p : String) (s : LoadState) (front back : List Texture) (old : Texture)
    (hp : aiGetMaterialTexture material type i = some p)
    (ht : s.textures = front ++ old :: back) (hk : s.k = front.length)
    (hc : s.model.textures_loaded_count ≤ s.model.textures_loaded.length)
    (hfit : NameFits s.model.directory p) (hlabel : strlen type_name + 1 ≤ types.type_size) :
    ∃ s' t, Model_LoadMaterialTextures.body types material type type_name i s = some s' ∧
      s'.textures = front ++ t :: back ∧ t.path = p ∧ s'.k = s.k + 1 ∧
      Loaded s.model s.world [p] [.write_texture s.k] s'.model s'.world := by
  have hfind := find_spec s.model.textures_loaded p s.model.textures_loaded_count 0 (by omega)
  simp only [List.drop_zero] at hfind
  cases hres : (s.model.textures_loaded.take s.model.textures_loaded_count).find?
      (fun t => decide (t.path = p)) with
  | some loaded =>
    have hpath : loaded.path = p := by simpa using List.find?_some hres
    have hmem : p ∈ s.model.loaded_paths := by
      rw [Model.loaded_paths, ← hpath]
      exact List.mem_map_of_mem _ (List.mem_of_find?_eq_some hres)
    refine ⟨{ s with textures := front ++ loaded :: back, k := s.k + 1,
                     world := s.world.heap_op (.write_texture s.k) }, loaded, ?_, rfl, hpath, rfl,
      ?_⟩
    · simp only [Model_LoadMaterialTextures.body, hp, hfind, hres, ht, hk, store_append]
    · refine ⟨rfl, rfl, rfl, hc, rfl, rfl, [], by simp, by simp [World.heap_op], List.nodup_nil,
        by simp, ?_⟩
      intro q hq
      simp only [List.mem_singleton] at hq
      subst hq
      simpa using hmem
  | none =>
    have hnot : p ∉ s.model.loaded_paths := by
      rw [Model.loaded_paths]
      intro hmem
      obtain ⟨t, ht1, ht2⟩ := List.mem_map.mp hmem
      have := List.find?_eq_none.mp hres t ht1
      simp [ht2] at this
    obtain ⟨id, w', hcall, w1, w2, w3, _⟩ :=
      Model_TextureFromFile_spec p s.model.directory false s.world hfit
    have hcopy : strcpy types.type_size type_name = some type_name := by
      simp [strcpy, hlabel]
    obtain ⟨block, hb1, hb2, hb3⟩ := realloc_store_take s.model.textures_loaded
      s.model.textures_loaded_count { id := id, type := type_name, path := p } hc
    refine ⟨{ model := { s.model with textures_loaded := block,
                                      textures_loaded_count := s.model.textures_loaded_count + 1 },
              textures := front ++ { id := id, type := type_name, path := p } :: back,
              k := s.k + 1,
              world := World.heap_op w' (.write_texture s.k) }, _, ?_, rfl, rfl, rfl, ?_⟩
    · simp only [Model_LoadMaterialTextures.body, hp, hfind, hres, hcall, hcopy, ht, hk,
        store_append, getElem?_append_cons, hb1]
    · refine ⟨rfl, rfl, rfl, by simp [hb2], ?_, ?_, [p], ?_, ?_, by simp, ?_, by simp⟩
      · simp [World.heap_op, w3]
      · simpa [World.heap_op] using w2
      · simp [Model.loaded_paths, hb3]
      · simpa [World.heap_op] using w1
      · intro q hq
        simp only [List.mem_singleton] at hq
        subst hq
        exact ⟨by simp, hnot⟩

theorem load_loop_spec (types : Types) (material : aiMaterial) (type : aiTextureType)
    (type_name : String) (hlabel : strlen type_name + 1 ≤ types.type_size) :
    ∀ (mid : List Texture) (i : Nat) (s : LoadState) (front back : List Texture),
      s.textures = front ++ mid ++ back → s.k = front.length →
      s.model.textures_loaded_count ≤ s.model.textures_loaded.length →
      i + mid.length ≤ (material.textures type).length →
      (∀ p ∈ ((material.textures type).drop i).take mid.length,
        NameFits s.model.directory p) →
      ∃ s' mid', for_loop (Model_LoadMaterialTextures.body types material type type_name)
            mid.length i s = some s' ∧
        s'.textures = front ++ mid' ++ back ∧
        mid'.map Texture.path = ((material.textures type).drop i).take mid.length ∧
        s'.k = s.k + mid.length ∧
        Loaded s.model s.world (((material.textures type).drop i).take mid.length)
          ((List.range' s.k mid.length).map HeapOp.write_texture) s'.model s'.world := by
  intro mid
  induction mid with
  | nil =>
    intro i s front back ht hk hc _ _
    exact ⟨s, [], rfl, by simpa using ht, by simp, by simp, by simpa using loaded_refl _ _ hc⟩
  | cons old mid ih =>
    intro i s front back ht hk hc hi hfit
    simp only [List.length_cons] at hi
    have hlt : i < (material.textures type).length := by omega
    have hget : aiGetMaterialTexture material type i = some (material.textures type)[i] :=
      List.getElem?_eq_getElem hlt
    have hdrop : (material.textures type).drop i =
        (material.textures type)[i] :: (material.textures type).drop (i + 1) :=
      List.drop_eq_getElem_cons hlt
    rw [hdrop, List.length_cons, List.take_succ_cons] at hfit
    obtain ⟨s1, t, hb1, hb2, hb3, hb4, hb5⟩ := body_spec types material type type_name i _ s
      front (mid ++ back) old hget (by simpa using ht) hk hc
      (hfit _ (List.mem_cons_self _ _)) hlabel
    obtain ⟨s2, mid2, hl1, hl2, hl3, hl4, hl5⟩ := ih (i + 1) s1 (front ++ [t]) back
      (by simpa using hb2) (by simp [hb4, hk]) hb5.2.2.2.1 (by omega)
      (fun q hq => by rw [hb5.2.2.1]; exact hfit q (List.mem_cons_of_mem _ hq))
    refine ⟨s2, t :: mid2, ?_, by simpa using hl2, ?_, ?_, ?_⟩
    · simp only [List.length_cons, for_loop, hb1, Option.some_bind, hl1]
    · rw [hdrop, List.length_cons, List.take_succ_cons, List.map_cons, hb3, hl3]
    · simp only [List.length_cons]; omega
    · have := loaded_trans hb5 hl5
      rw [hdrop, List.length_cons, List.take_succ_cons, List.range'_succ, List.map_cons]
      rw [hb4] at this
      exact this

theorem Model_LoadMaterialTextures_spec (types : Types) (model : Model)
    (start_index end_index : Nat)
    (material : aiMaterial) (type : aiTextureType) (type_name : String) (world : World)
    (front mid back : List Texture) (hs : front.length = start_index)
    (hle : start_index ≤ end_index) (hm : mid.length = end_index - start_index)
    (hn : end_index - start_index ≤ (material.textures type).length)
    (hc : model.textures_loaded_count ≤ model.textures_loaded.length)
    (hfit : ∀ p ∈ (material.textures type).take (end_index - start_index),
      NameFits model.directory p)
    (hlabel : strlen type_name + 1 ≤ types.type_size) :
    ∃ s' mid', Model_LoadMaterialTextures types model (front ++ mid ++ back) start_index
          end_index material type type_name world = some s' ∧
      s'.textures = front ++ mid' ++ back ∧
      mid'.map Texture.path = (material.textures type).take (end_index - start_index) ∧
      s'.k = start_index + (end_index - start_index) ∧
      Loaded model world ((material.textures type).take (end_index - start_index))
        ((List.range' start_index (end_index - start_index)).map HeapOp.write_texture)
        s'.model s'.world := by
  have := load_loop_spec types material type type_name hlabel mid 0
    { model := model, textures := front ++ mid ++ back, k := start_index, world := world }
    front back rfl hs.symm hc (by omega) (by simpa [hm] using hfit)
  simpa [Model_LoadMaterialTextures, GLuint_sub, hle, hm] using this

theorem vertex_copies (ai_mesh : aiMesh) (i : Nat) (hwf : ai_mesh.WellFormed)
    (hi : i < ai_mesh.mNumVertices) :
    ∃ v, Model_ProcessMesh.vertex ai_mesh i = some v ∧ v.Copies ai_mesh i := by
  obtain ⟨h1, h2, h3, h4, h5, _, _⟩ := hwf
  have e1 : ai_mesh.mVertices[i]? = some ai_mesh.mVertices[i] :=
    List.getElem?_eq_getElem (by omega)
  have e2 : ai_mesh.mNormals[i]? = some ai_mesh.mNormals[i] :=
    List.getElem?_eq_getElem (by omega)
  have e3 : ai_mesh.mTangents[i]? = some ai_mesh.mTangents[i] :=
    List.getElem?_eq_getElem (by omega)
  have e4 : ai_mesh.mBitangents[i]? = some ai_mesh.mBitangents[i] :=
    List.getElem?_eq_getElem (by omega)
  cases hc : ai_mesh.mTextureCoords0 with
  | none =>
    simp only [Model_ProcessMesh.vertex, e1, e2, e3, e4, hc]
    refine ⟨_, rfl, ?_⟩
    exact ⟨⟨_, e1, rfl⟩, ⟨_, e2, rfl⟩, ⟨_, e3, rfl⟩, ⟨_, e4, rfl⟩, by simp [hc], fun _ => rfl⟩
  | some coords =>
    have hlen := h5 coords (by simp [hc])
    have e5 : coords[i]? = some coords[i] := List.getElem?_eq_getElem (by omega)
    simp only [Model_ProcessMesh.vertex, e1, e2, e3, e4, hc, e5]
    refine ⟨_, rfl, ?_⟩
    refine ⟨⟨_, e1, rfl⟩, ⟨_, e2, rfl⟩, ⟨_, e3, rfl⟩, ⟨_, e4, rfl⟩, ?_, by simp [hc]⟩
    intro coords' hc'
    rw [hc] at hc'
    cases hc'
    exact ⟨_, e5, rfl⟩

theorem vertices_spec (ai_mesh : aiMesh) (hwf : ai_mesh.WellFormed) :
    ∃ vs, Model_ProcessMesh.vertices ai_mesh ai_mesh.mNumVertices = some vs ∧
      vs.length = ai_mesh.mNumVertices ∧
      ∀ i, i < ai_mesh.mNumVertices → ∃ v, vs[i]? = some v ∧ v.Copies ai_mesh i := by
  obtain ⟨vs, h1, h2, h3⟩ := vertices_loop ai_mesh ai_mesh.mNumVertices
    (fun i hi => (vertex_copies ai_mesh i hwf hi).imp fun _ h => h.1)
  refine ⟨vs, h1, h2, fun i hi => ?_⟩
  obtain ⟨v, hv1, hv2⟩ := vertex_copies ai_mesh i hwf hi
  exact ⟨v, by rw [h3 i hi, hv1], hv2⟩

theorem indices_after_count (ai_mesh : aiMesh)
    (hwf : ∀ face ∈ ai_mesh.faces, face.mNumIndices ≤ face.mIndices.length) :
    (indices_after ai_mesh ai_mesh.mNumFaces).index_count =
        (ai_mesh.faces.map aiFace.mNumIndices).sum ∧
      (indices_after ai_mesh ai_mesh.mNumFaces).indices =
        (ai_mesh.faces.map aiFace.indices).flatten := by
  refine ⟨?_, rfl⟩
  simp only [indices_after, List.length_flatten, List.map_map]
  rw [← aiMesh.faces]
  congr 1
  apply List.map_congr_left
  intro face hface
  simp [aiFace.indices, hwf face hface]

theorem range_split (a b : Nat) :
    List.range' 0 a ++ List.range' a b = List.range' 0 (a + b) := by
  have := List.range'_append_1 0 a b
  rw [Nat.zero_add, Nat.add_comm b a] at this
  exact this

theorem Model_LoadMaterialTextures_fills (types : Types) (model : Model)
    (start_index end_index : Nat)
    (material : aiMaterial) (type : aiTextureType) (type_name : String) (world : World)
    (front mid back : List Texture) (hs : front.length = start_index)
    (hle : start_index ≤ end_index) (hm : mid.length = end_index - start_index)
    (hn : end_index - start_index ≤ (material.textures type).length)
    (hc : model.textures_loaded_count ≤ model.textures_loaded.length)
    (hfit : ∀ p ∈ (material.textures type).take (end_index - start_index),
      NameFits model.directory p)
    (hlabel : strlen type_name + 1 ≤ types.type_size) :
    ∃ s' mid', Fills types model (front ++ mid ++ back) world start_index end_index material
          type type_name s' ∧
      s'.textures = front ++ mid' ++ back ∧
      mid'.map Texture.path = (material.textures type).take (end_index - start_index) ∧
      Loaded model world ((material.textures type).take (end_index - start_index))
        ((List.range' start_index (end_index - start_index)).map HeapOp.write_texture)
        s'.model s'.world := by
  obtain ⟨s', mid', h1, h2, h3, h4, h5⟩ := Model_LoadMaterialTextures_spec types model
    start_index end_index material type type_name world front mid back hs hle hm hn hc hfit
    hlabel
  have hlen : mid'.length = end_index - start_index := by
    have := congrArg List.length h3
    simpa [Nat.min_eq_left hn] using this
  refine ⟨s', mid', ⟨h1, by omega, h5.2.2.2.2.1, ?_, ?_, ?_⟩, h2, h3, h5⟩
  · simp [h2, hlen, hm]
  · intro j hj
    rw [h2]
    rcases hj with hj | hj
    · rw [List.append_assoc, List.append_assoc, List.getElem?_append_left (by omega),
        List.getElem?_append_left (by omega)]
    · rw [List.getElem?_append_right (by simp; omega),
        List.getElem?_append_right (by simp; omega)]
      simp [hlen, hm]
  · intro i hi
    have e : start_index + i - front.length = i := by omega
    rw [h2, List.append_assoc, List.getElem?_append_right (by omega),
      List.getElem?_append_left (by omega), ← List.getElem?_map, h3, e,
      List.getElem?_take_of_lt hi]

theorem fits_of_take {directory directory' : String} {paths all : List String} (n : Nat)
    (hdir : directory' = directory) (hsub : ∀ p ∈ paths, p ∈ all)
    (hfit : ∀ p ∈ all, NameFits directory p) : ∀ p ∈ paths.take n, NameFits directory' p := by
  intro p hp
  rw [hdir]
  exact hfit p (hsub p (List.mem_of_mem_take hp))

theorem textures_calls (types : Types) (model : Model) (ai_mesh : aiMesh) (scene : aiScene)
    (world : World)
    (material : aiMaterial) (hmat : scene.mMaterials[ai_mesh.mMaterialIndex]? = some material)
    (hc : model.textures_loaded_count ≤ model.textures_loaded.length)
    (hfit : ∀ p ∈ material.queried_paths, NameFits model.directory p)
    (hlabels : LabelsFit types) :
    ∃ t0 t1 t2 t3 s0 s1 s2 s3,
      Fills types model (malloc material.queried_paths.length) world 0
        (material.textures .DIFFUSE).length material .DIFFUSE "texture_diffuse" s0 ∧
      Fills types s0.model s0.textures s0.world (material.textures .DIFFUSE).length
        ((material.textures .DIFFUSE).length + (material.textures .SPECULAR).length)
        material .SPECULAR "texture_specular" s1 ∧
      Fills types s1.model s1.textures s1.world
        ((material.textures .DIFFUSE).length + (material.textures .SPECULAR).length)
        ((material.textures .DIFFUSE).length + (material.textures .SPECULAR).length +
          (material.textures .HEIGHT).length)
        material .HEIGHT "texture_normal" s2 ∧
      Fills types s2.model s2.textures s2.world
        ((material.textures .DIFFUSE).length + (material.textures .SPECULAR).length +
          (material.textures .HEIGHT).length)
        material.queried_paths.length material .AMBIENT "texture_height" s3 ∧
      Model_ProcessMesh.textures types model ai_mesh scene world =
        some (material.queried_paths.length, t0 ++ t1 ++ t2 ++ t3, s3.model, s3.world) ∧
      t0.map Texture.path = material.textures .DIFFUSE ∧
      t1.map Texture.path = material.textures .SPECULAR ∧
      t2.map Texture.path = material.textures .HEIGHT ∧
      t3.map Texture.path = material.textures .AMBIENT ∧
      Loaded model world material.queried_paths
        ((List.range material.queried_paths.length).map HeapOp.write_texture)
        s3.model s3.world ∧
      s3.textures = t0 ++ t1 ++ t2 ++ t3 := by
  have m0 : ∀ p ∈ material.textures .DIFFUSE, p ∈ material.queried_paths := by
    intro p hp; simp [aiMaterial.queried_paths, hp]
  have m1 : ∀ p ∈ material.textures .SPECULAR, p ∈ material.queried_paths := by
    intro p hp; simp [aiMaterial.queried_paths, hp]
  have m2 : ∀ p ∈ material.textures .HEIGHT, p ∈ material.queried_paths := by
    intro p hp; simp [aiMaterial.queried_paths, hp]
  have m3 : ∀ p ∈ material.textures .AMBIENT, p ∈ material.queried_paths := by
    intro p hp; simp [aiMaterial.queried_paths, hp]
  have hq : material.queried_paths.length = (material.textures .DIFFUSE).length +
      (material.textures .SPECULAR).length + (material.textures .HEIGHT).length +
      (material.textures .AMBIENT).length := by
    simp [aiMaterial.queried_paths, Nat.add_assoc]
  rw [hq]
  generalize hc0 : (material.textures .DIFFUSE).length = c0
  generalize hc1 : (material.textures .SPECULAR).length = c1
  generalize hc2 : (material.textures .HEIGHT).length = c2
  generalize hc3 : (material.textures .AMBIENT).length = c3
  have hsplit : (malloc (c0 + c1 + c2 + c3) : List Texture) =
      [] ++ List.replicate c0 default ++ List.replicate (c1 + c2 + c3) default := by
    simp only [malloc, List.nil_append, List.append_replicate_replicate]
    congr 1; omega
  obtain ⟨s0, t0, f0, a2, a3, a5⟩ := Model_LoadMaterialTextures_fills types model 0 c0 material
    .DIFFUSE "texture_diffuse" world [] (List.replicate c0 default)
    (List.replicate (c1 + c2 + c3) default) rfl (Nat.zero_le _) (by simp) (by simp [hc0]) hc
    (fits_of_take _ rfl m0 hfit) hlabels.1
  rw [← hsplit] at f0
  have hsplit1 : s0.textures =
      t0 ++ List.replicate c1 default ++ List.replicate (c2 + c3) default := by
    rw [a2]
    simp only [List.nil_append, List.append_assoc, List.append_replicate_replicate]
    congr 2; omega
  have l0 : t0.length = c0 := by
    have := congrArg List.length a3; simpa [hc0] using this
  obtain ⟨s1, t1, f1, b2, b3, b5⟩ := Model_LoadMaterialTextures_fills types s0.model c0
    (c0 + c1)
    material .SPECULAR "texture_specular" s0.world t0 (List.replicate c1 default)
    (List.replicate (c2 + c3) default) l0 (by omega) (by simp) (by simp [hc1]) a5.2.2.2.1
    (fits_of_take _ a5.2.2.1 m1 hfit) hlabels.2.1
  rw [← hsplit1] at f1
  have l1 : t1.length = c1 := by
    have := congrArg List.length b3; simpa [hc1] using this
  have hsplit2 : s1.textures =
      t0 ++ t1 ++ List.replicate c2 default ++ List.replicate c3 default := by
    rw [b2]
    simp only [List.append_assoc, List.append_replicate_replicate]
  obtain ⟨s2, t2, f2, d2, d3, d5⟩ := Model_LoadMaterialTextures_fills types s1.model (c0 + c1)
    (c0 + c1 + c2) material .HEIGHT "texture_normal" s1.world (t0 ++ t1)
    (List.replicate c2 default) (List.replicate c3 default) (by simp [l0, l1]) (by omega)
    (by simp) (by simp [hc2]) b5.2.2.2.1
    (fits_of_take _ (b5.2.2.1.trans a5.2.2.1) m2 hfit) hlabels.2.2.1
  rw [← hsplit2] at f2
  have l2 : t2.length = c2 := by
    have := congrArg List.length d3; simpa [hc2] using this
  have hsplit3 : s2.textures = t0 ++ t1 ++ t2 ++ List.replicate c3 default ++ [] := by
    rw [d2, List.append_nil]
  obtain ⟨s3, t3, f3, e2, e3, e5⟩ := Model_LoadMaterialTextures_fills types s2.model
    (c0 + c1 + c2)
    (c0 + c1 + c2 + c3) material .AMBIENT "texture_height" s2.world (t0 ++ t1 ++ t2)
    (List.replicate c3 default) [] (by simp only [List.length_append, l0, l1, l2]) (by omega)
    (by simp) (by simp [hc3]) d5.2.2.2.1
    (fits_of_take _ ((d5.2.2.1.trans b5.2.2.1).trans a5.2.2.1) m3 hfit) hlabels.2.2.2
  rw [← hsplit3] at f3
  simp only [List.append_nil] at e2
  refine ⟨t0, t1, t2, t3, s0, s1, s2, s3, f0, f1, f2, f3, ?_, ?_, ?_, ?_, ?_, ?_, e2⟩
  · simp only [Model_ProcessMesh.textures, hmat, aiGetMaterialTextureCount, ge_iff_le,
      Nat.zero_le, if_true, hc0, hc1, hc2, hc3, f0.1, f1.1, f2.1, f3.1, e2]
  · simpa [← hc0] using a3
  · simpa [← hc1] using b3
  · simpa [← hc2] using d3
  · simpa [← hc3] using e3
  · have h := loaded_trans (loaded_trans (loaded_trans a5 b5) d5) e5
    have hp : (material.textures .DIFFUSE).take (c0 - 0) ++
        (material.textures .SPECULAR).take (c0 + c1 - c0) ++
        (material.textures .HEIGHT).take (c0 + c1 + c2 - (c0 + c1)) ++
        (material.textures .AMBIENT).take (c0 + c1 + c2 + c3 - (c0 + c1 + c2)) =
        material.queried_paths := by
      simp [aiMaterial.queried_paths, ← hc0, ← hc1, ← hc2, ← hc3]
    have ho : (List.range' 0 (c0 - 0)).map HeapOp.write_texture ++
        (List.range' c0 (c0 + c1 - c0)).map HeapOp.write_texture ++
        (List.range' (c0 + c1) (c0 + c1 + c2 - (c0 + c1))).map HeapOp.write_texture ++
        (List.range' (c0 + c1 + c2) (c0 + c1 + c2 + c3 - (c0 + c1 + c2))).map
          HeapOp.write_texture =
        (List.range (c0 + c1 + c2 + c3)).map HeapOp.write_texture := by
      rw [List.range_eq_range']
      simp only [Nat.sub_zero, Nat.add_sub_cancel_left, ← List.map_append]
      congr 1
      rw [range_split, range_split, range_split]
    rw [hp, ho] at h
    exact h

theorem Model_ProcessMesh_detail (types : Types) (model : Model) (ai_mesh : aiMesh)
    (scene : aiScene)
    (world : World) (material : aiMaterial) (hslot : model.mesh_count < model.meshes.length)
    (hwf : ai_mesh.WellFormed)
    (hmat : scene.mMaterials[ai_mesh.mMaterialIndex]? = some material)
    (hc : model.textures_loaded_count ≤ model.textures_loaded.length)
    (hfit : ∀ p ∈ material.queried_paths, NameFits model.directory p)
    (hlabels : LabelsFit types) :
    ∃ mesh t0 t1 t2 t3 s0 s1 s2 s3,
      Model_ProcessMesh types model ai_mesh scene world =
        some ({ s3.model with meshes := s3.model.meshes.set s3.model.mesh_count mesh,
                              mesh_count := s3.model.mesh_count + 1 },
              s3.world.call (.Mesh_Setup mesh)) ∧
      Transcription ai_mesh material mesh ∧
      mesh.textures = t0 ++ t1 ++ t2 ++ t3 ∧
      t0.map Texture.path = material.textures .DIFFUSE ∧
      t1.map Texture.path = material.textures .SPECULAR ∧
      t2.map Texture.path = material.textures .HEIGHT ∧
      t3.map Texture.path = material.textures .AMBIENT ∧
      Loaded model (world.heap_op (.write_mesh model.mesh_count model.meshes.length))
        material.queried_paths
        ((List.range material.queried_paths.length).map HeapOp.write_texture)
        s3.model s3.world ∧
      Fills types model (malloc material.queried_paths.length)
        (world.heap_op (.write_mesh model.mesh_count model.meshes.length)) 0
        (material.textures .DIFFUSE).length material .DIFFUSE "texture_diffuse" s0 ∧
      Fills types s0.model s0.textures s0.world (material.textures .DIFFUSE).length
        ((material.textures .DIFFUSE).length + (material.textures .SPECULAR).length)
        material .SPECULAR "texture_specular" s1 ∧
      Fills types s1.model s1.textures s1.world
        ((material.textures .DIFFUSE).length + (material.textures .SPECULAR).length)
        ((material.textures .DIFFUSE).length + (material.textures .SPECULAR).length +
          (material.textures .HEIGHT).length)
        material .HEIGHT "texture_normal" s2 ∧
      Fills types s2.model s2.textures s2.world
        ((material.textures .DIFFUSE).length + (material.textures .SPECULAR).length +
          (material.textures .HEIGHT).length)
        material.queried_paths.length material .AMBIENT "texture_height" s3 ∧
      s3.textures = mesh.textures := by
  obtain ⟨vs, v1, v2, v3⟩ := vertices_spec ai_mesh hwf
  have hix := indices_spec ai_mesh hwf.2.2.2.2.2.1 hwf.2.2.2.2.2.2
  obtain ⟨i1, i2⟩ := indices_after_count ai_mesh hwf.2.2.2.2.2.2
  obtain ⟨t0, t1, t2, t3, s0, s1, s2, s3, f0, f1, f2, f3, x1, x2, x3, x4, x5, x6, x7⟩ :=
    textures_calls types model ai_mesh scene
      (world.heap_op (.write_mesh model.mesh_count model.meshes.length)) material hmat hc hfit
      hlabels
  refine ⟨{ vertex_count := ai_mesh.mNumVertices, vertices := vs,
            index_count := (indices_after ai_mesh ai_mesh.mNumFaces).index_count,
            indices := (indices_after ai_mesh ai_mesh.mNumFaces).indices,
            texture_count := material.queried_paths.length,
            textures := t0 ++ t1 ++ t2 ++ t3 }, t0, t1, t2, t3, s0, s1, s2, s3, ?_, ?_, rfl,
    x2, x3, x4, x5, x6, f0, f1, f2, f3, x7⟩
  · simp only [Model_ProcessMesh, hslot, if_true, v1, hix, x1]
  · refine ⟨rfl, v2, v3, i1, i2, rfl, ?_⟩
    simp [aiMaterial.queried_paths, x2, x3, x4, x5]

theorem Model_ProcessMesh_spec (types : Types) (model : Model) (ai_mesh : aiMesh)
    (scene : aiScene)
    (world : World) (material : aiMaterial) (hslot : model.mesh_count < model.meshes.length)
    (hwf : ai_mesh.WellFormed)
    (hmat : scene.mMaterials[ai_mesh.mMaterialIndex]? = some material)
    (hc : model.textures_loaded_count ≤ model.textures_loaded.length)
    (hfit : ∀ p ∈ material.queried_paths, NameFits model.directory p)
    (hlabels : LabelsFit types) :
    ∃ mesh m1 w1,
      Model_ProcessMesh types model ai_mesh scene world =
        some ({ m1 with meshes := m1.meshes.set m1.mesh_count mesh,
                        mesh_count := m1.mesh_count + 1 }, w1.call (.Mesh_Setup mesh)) ∧
      Transcription ai_mesh material mesh ∧
      Loaded model (world.heap_op (.write_mesh model.mesh_count model.meshes.length))
        material.queried_paths
        ((List.range material.queried_paths.length).map HeapOp.write_texture) m1 w1 := by
  obtain ⟨mesh, _, _, _, _, _, _, _, s3, h1, h2, _, _, _, _, _, h8, _⟩ :=
    Model_ProcessMesh_detail types model ai_mesh scene world material hslot hwf hmat hc hfit
      hlabels
  exact ⟨mesh, s3.model, s3.world, h1, h2, h8⟩

theorem paths_loaded_refl (m : Model) (w : World) : PathsLoaded m w [] m w :=
  ⟨[], by simp, by simp, List.nodup_nil, by simp, by simp⟩

theorem scene_paths_append (scene : aiScene) (r1 r2 : List Nat) :
    scene.paths (r1 ++ r2) = scene.paths r1 ++ scene.paths r2 := by
  simp [aiScene.paths]

theorem processed_refl (scene : aiScene) (m : Model) (w : World)
    (h1 : m.mesh_count ≤ m.meshes.length)
    (h2 : m.textures_loaded_count ≤ m.textures_loaded.length) : Processed scene m w [] m w :=
  ⟨rfl, rfl, h1, h2, ⟨[], by simp, List.Forall₂.nil, by simp⟩,
    ⟨[], by simp, by simp, by simp [mesh_writes]⟩, paths_loaded_refl m w⟩

theorem processed_trans {scene : aiScene} {m m1 m2 : Model} {w w1 w2 : World}
    {r1 r2 : List Nat} (h1 : Processed scene m w r1 m1 w1)
    (h2 : Processed scene m1 w1 r2 m2 w2) : Processed scene m w (r1 ++ r2) m2 w2 := by
  obtain ⟨a1, a2, _, _, ⟨added1, a5, a6, a7⟩, ⟨ops1, a8, a9, a11⟩, a10⟩ := h1
  obtain ⟨b1, b2, b3, b4, ⟨added2, b5, b6, b7⟩, ⟨ops2, b8, b9, b11⟩, b10⟩ := h2
  refine ⟨b1.trans a1, ?_, b3, b4, ⟨added1 ++ added2, ?_, List.rel_append a6 b6, ?_⟩,
    ⟨ops1 ++ ops2, ?_, ?_, ?_⟩, ?_⟩
  · rw [b2, a2, List.length_append]; omega
  · rw [b5, a5, List.append_assoc]
  · rw [b7, a7, List.append_assoc]
  · rw [b8, a8, List.append_assoc]
  · intro op hop
    rcases List.mem_append.mp hop with h | h
    · exact a9 op h
    · exact b9 op h
  · rw [mesh_writes, List.filterMap_append, ← mesh_writes, ← mesh_writes, a11, b11, a2,
      List.range'_append_1, List.length_append, Nat.add_comm r2.length]
  · rw [scene_paths_append]; exact paths_loaded_trans a10 b10

theorem take_set_succ {α : Type} (block : List α) (n : Nat) (v : α) (h : n < block.length) :
    (block.set n v).take (n + 1) = block.take n ++ [v] := by
  apply List.ext_getElem?
  intro i
  rcases Nat.lt_trichotomy i n with hi | hi | hi
  · rw [List.getElem?_take_of_lt (by omega), List.getElem?_set_ne (by omega),
      List.getElem?_append_left (by simp; omega), List.getElem?_take_of_lt hi]
  · subst hi
    rw [List.getElem?_take_of_lt (by omega), List.getElem?_set_self h,
      List.getElem?_append_right (by simp)]
    simp [Nat.min_eq_left (Nat.le_of_lt h)]
  · rw [List.getElem?_eq_none (by simp; omega), List.getElem?_eq_none (by simp; omega)]

theorem mem_paths_of_mem (scene : aiScene) (refs : List Nat) (index : Nat) (h : index ∈ refs)
    (p : String) (hp : p ∈ scene.paths [index]) : p ∈ scene.paths refs := by
  simp only [aiScene.paths, List.map_cons, List.map_nil, List.flatten_cons, List.flatten_nil,
    List.append_nil] at hp
  simp only [aiScene.paths, List.mem_flatten, List.mem_map]
  exact ⟨_, ⟨index, h, rfl⟩, hp⟩

theorem mesh_step (types : Types) (mMeshes : List Nat) (scene : aiScene) (i index : Nat)
    (m : Model) (w : World)
    (hi : mMeshes[i]? = some index) (hok : scene.mesh_ok index = true)
    (hslot : m.mesh_count < m.meshes.length)
    (hc : m.textures_loaded_count ≤ m.textures_loaded.length)
    (hfit : ∀ p ∈ scene.paths [index], NameFits m.directory p) (hlabels : LabelsFit types) :
    ∃ m' w', Model_ProcessNode.mesh types mMeshes scene i (m, w) = some (m', w') ∧
      m'.meshes.length = m.meshes.length ∧ Processed scene m w [index] m' w' := by
  obtain ⟨ai_mesh, hmesh, hwf, hm⟩ : ∃ ai_mesh, scene.mMeshes[index]? = some ai_mesh ∧
      ai_mesh.WellFormed ∧ ai_mesh.mMaterialIndex < scene.mMaterials.length := by
    unfold aiScene.mesh_ok at hok
    cases hget : scene.mMeshes[index]? with
    | none => simp [hget] at hok
    | some ai_mesh =>
      simp only [hget, Bool.and_eq_true, decide_eq_true_eq] at hok
      exact ⟨ai_mesh, rfl, hok.1, hok.2⟩
  have hmat : scene.mMaterials[ai_mesh.mMaterialIndex]? =
      some scene.mMaterials[ai_mesh.mMaterialIndex] := List.getElem?_eq_getElem hm
  have hp : scene.paths [index] = (scene.mMaterials[ai_mesh.mMaterialIndex]).queried_paths := by
    simp [aiScene.paths, aiScene.mesh_paths, hmesh, hmat]
  rw [hp] at hfit
  obtain ⟨mesh, m1, w1, p1, p2, p8⟩ :=
    Model_ProcessMesh_spec types m ai_mesh scene w _ hslot hwf hmat hc hfit hlabels
  obtain ⟨q1, q2, q3, q4, q5, q6, q7⟩ := p8
  simp only [Model_ProcessNode.mesh, hi, hmesh, p1]
  refine ⟨_, _, rfl, ?_, ?_⟩
  · simp [q2]
  · refine ⟨q3, by simp [q1], ?_, q4, ⟨[mesh], ?_, ?_, ?_⟩,
      ⟨HeapOp.write_mesh m.mesh_count m.meshes.length ::
        (List.range (scene.mMaterials[ai_mesh.mMaterialIndex]).queried_paths.length).map
          HeapOp.write_texture, ?_, ?_, ?_⟩, ?_⟩
    · simp only [List.length_set, q1, q2]; omega
    · simp only [q1, q2]; exact take_set_succ _ _ _ hslot
    · exact List.Forall₂.cons ⟨ai_mesh, _, hmesh, hmat, p2⟩ List.Forall₂.nil
    · simp [World.call, mesh_setups, List.filterMap_append] at q6 ⊢
      simpa [mesh_setups] using q6
    · simp [World.call, q5, World.heap_op]
    · intro op hop
      rcases List.mem_cons.mp hop with h | h
      · subst h; exact hslot
      · obtain ⟨k, _, rfl⟩ := List.mem_map.mp h; trivial
    · have hnone : mesh_writes ((List.range
          (scene.mMaterials[ai_mesh.mMaterialIndex]).queried_paths.length).map
          HeapOp.write_texture) = [] := by
        rw [mesh_writes, List.filterMap_eq_nil_iff]
        intro op hop
        obtain ⟨k, _, rfl⟩ := List.mem_map.mp hop
        rfl
      rw [mesh_writes, List.filterMap_cons, ← mesh_writes, hnone]
      rfl
    · rw [hp]
      obtain ⟨new, n1, n2, n3, n4, n5⟩ := q7
      refine ⟨new, ?_, ?_, n3, n4, n5⟩
      · simpa [Model.loaded_paths] using n1
      · simpa [World.call, World.heap_op, texture_loads, List.filterMap_append] using n2

theorem mesh_loop (types : Types) (mMeshes : List Nat) (scene : aiScene) (n : Nat) (m : Model)
    (w : World)
    (hn : n ≤ mMeshes.length) (hok : ∀ index ∈ mMeshes.take n, scene.mesh_ok index = true)
    (hcap : m.meshes.length = m.mesh_count + n)
    (hc : m.textures_loaded_count ≤ m.textures_loaded.length)
    (hfit : ∀ p ∈ scene.paths (mMeshes.take n), NameFits m.directory p)
    (hlabels : LabelsFit types) :
    ∃ m' w', for_loop (Model_ProcessNode.mesh types mMeshes scene) n 0 (m, w) = some (m', w') ∧
      m'.meshes.length = m'.mesh_count ∧ Processed scene m w (mMeshes.take n) m' w' := by
  obtain ⟨s, hs, hlen, hP⟩ := for_loop_invariant (Model_ProcessNode.mesh types mMeshes scene)
    (fun i s => s.1.meshes.length = m.meshes.length ∧
      Processed scene m w (mMeshes.take i) s.1 s.2) n 0 (m, w)
    ⟨rfl, by simpa using processed_refl scene m w (by omega) hc⟩
    (by
      intro i t _ hi ⟨hlen, hP⟩
      have hlt : i < mMeshes.length := by omega
      have hget : mMeshes[i]? = some mMeshes[i] := List.getElem?_eq_getElem hlt
      have hcount : t.1.mesh_count = m.mesh_count + i := by
        rw [hP.2.1, List.length_take]; omega
      have hmem : mMeshes[i] ∈ mMeshes.take n := by
        rw [List.mem_take_iff_getElem]; exact ⟨i, by omega, rfl⟩
      obtain ⟨m', w', h1, h2, h3⟩ := mesh_step types mMeshes scene i mMeshes[i] t.1 t.2 hget
        (hok _ hmem) (by omega) hP.2.2.2.1
        (fun p hp => by
          rw [hP.1]; exact hfit p (mem_paths_of_mem scene _ _ hmem p hp))
        hlabels
      refine ⟨(m', w'), h1, h2.trans hlen, ?_⟩
      have := processed_trans hP h3
      rwa [List.take_succ, hget])
  refine ⟨s.1, s.2, hs, ?_, by simpa using hP⟩
  simp only [Nat.zero_add] at hP
  rw [hlen, hP.2.1, List.length_take, hcap]; omega

theorem realloc_step (scene : aiScene) (m : Model) (w : World) (n : Nat)
    (h1 : m.mesh_count ≤ m.meshes.length)
    (h2 : m.textures_loaded_count ≤ m.textures_loaded.length) :
    (realloc m.meshes (m.mesh_count + n)).length = m.mesh_count + n ∧
      Processed scene m w []
        { m with meshes := realloc m.meshes (m.mesh_count + n) }
        (w.heap_op (.realloc_meshes m.mesh_count (m.mesh_count + n))) := by
  have hlen : (realloc m.meshes (m.mesh_count + n)).length = m.mesh_count + n := by
    simp [realloc]; omega
  refine ⟨hlen, rfl, rfl, by simp only [hlen]; omega, h2, ⟨[], ?_, List.Forall₂.nil, by
    simp [World.heap_op]⟩, ⟨[.realloc_meshes m.mesh_count (m.mesh_count + n)], rfl, ?_, by
    simp [mesh_writes]⟩,
    ⟨[], by simp [Model.loaded_paths], by simp [World.heap_op], List.nodup_nil, by simp,
      by simp [aiScene.paths]⟩⟩
  · simp only [List.append_nil, realloc]
    rw [List.take_append_of_le_length (by simp; omega), List.take_take]
    congr 1; omega
  · intro op hop
    simp only [List.mem_singleton] at hop
    subst hop
    exact Nat.le_add_right _ _

mutual
theorem node_spec (types : Types) (scene : aiScene) (hlabels : LabelsFit types) :
    ∀ (node : aiNode) (m : Model) (w : World),
    node.well_formed scene = true → m.mesh_count ≤ m.meshes.length →
    m.textures_loaded_count ≤ m.textures_loaded.length →
    (∀ p ∈ scene.paths node.references, NameFits m.directory p) →
    m.mesh_count + node.references.length < 2 ^ 32 →
    ∃ m' w', Model_ProcessNode types scene node (m, w) = some (m', w') ∧
      m'.meshes.length = m'.mesh_count ∧ Processed scene m w node.references m' w'
  | .mk mNumMeshes mMeshes mNumChildren mChildren, m, w, hwf, h1, h2, hfit, h32 => by
    simp only [aiNode.well_formed, Bool.and_eq_true, decide_eq_true_eq, List.all_eq_true] at hwf
    obtain ⟨⟨hn, hok⟩, hch⟩ := hwf
    simp only [aiNode.references, List.length_append, List.length_take,
      Nat.min_eq_left hn] at h32
    simp only [aiNode.references, scene_paths_append, List.mem_append] at hfit
    have e : GLuint_add m.mesh_count mNumMeshes = m.mesh_count + mNumMeshes :=
      Nat.mod_eq_of_lt (by omega)
    obtain ⟨r1, r2⟩ := realloc_step scene m w mNumMeshes h1 h2
    obtain ⟨m1, w1, l1, l2, l3⟩ := mesh_loop types mMeshes scene mNumMeshes
      { m with meshes := realloc m.meshes (m.mesh_count + mNumMeshes) }
      (w.heap_op (.realloc_meshes m.mesh_count (m.mesh_count + mNumMeshes))) hn hok r1 h2
      (fun p hp => hfit p (Or.inl hp)) hlabels
    have hcount : m1.mesh_count = m.mesh_count + mNumMeshes := by
      rw [l3.2.1, List.length_take, Nat.min_eq_left hn]
    obtain ⟨m2, w2, c1, c2, c3⟩ := children_spec types scene hlabels mNumChildren mChildren
      m1 w1 hch l2 l3.2.2.2.1
      (fun p hp => by rw [l3.1]; exact hfit p (Or.inr hp)) (by omega)
    refine ⟨m2, w2, ?_, c2, ?_⟩
    · simp only [Model_ProcessNode, e, l1, c1]
    · have := processed_trans (processed_trans r2 l3) c3
      simpa [aiNode.references] using this
theorem children_spec (types : Types) (scene : aiScene) (hlabels : LabelsFit types) :
    ∀ (count : Nat) (children : List aiNode) (m : Model)
    (w : World), aiNode.well_formed_children scene count children = true →
    m.meshes.length = m.mesh_count →
    m.textures_loaded_count ≤ m.textures_loaded.length →
    (∀ p ∈ scene.paths (aiNode.references_children count children), NameFits m.directory p) →
    m.mesh_count + (aiNode.references_children count children).length < 2 ^ 32 →
    ∃ m' w', Model_ProcessNode.children types scene count children (m, w) = some (m', w') ∧
      m'.meshes.length = m'.mesh_count ∧
      Processed scene m w (aiNode.references_children count children) m' w'
  | 0, _, m, w, _, h1, h2, _, _ =>
    ⟨m, w, by simp [Model_ProcessNode.children], h1, by
      simpa [aiNode.references_children] using processed_refl scene m w (by omega) h2⟩
  | _ + 1, [], _, _, hwf, _, _, _, _ => by simp [aiNode.well_formed_children] at hwf
  | count + 1, child :: rest, m, w, hwf, h1, h2, hfit, h32 => by
    simp only [aiNode.well_formed_children, Bool.and_eq_true] at hwf
    simp only [aiNode.references_children, List.length_append] at h32
    simp only [aiNode.references_children, scene_paths_append, List.mem_append] at hfit
    obtain ⟨m1, w1, a1, a2, a3⟩ := node_spec types scene hlabels child m w hwf.1 (by omega) h2
      (fun p hp => hfit p (Or.inl hp)) (by omega)
    obtain ⟨m2, w2, b1, b2, b3⟩ := children_spec types scene hlabels count rest m1 w1 hwf.2 a2
      a3.2.2.2.1 (fun p hp => by rw [a3.1]; exact hfit p (Or.inr hp))
      (by rw [a3.2.1]; omega)
    refine ⟨m2, w2, ?_, b2, ?_⟩
    · simp only [Model_ProcessNode.children, a1, b1]
    · simpa [aiNode.references_children] using processed_trans a3 b3
end

theorem stored_mesh (m1 : Model) (mesh : Mesh) (n : Nat) (h1 : m1.mesh_count = n)
    (h2 : n < m1.meshes.length) :
    ({ m1 with meshes := m1.meshes.set m1.mesh_count mesh,
               mesh_count := m1.mesh_count + 1 } : Model).meshes[n]? = some mesh := by
  simp [h1, h2]

theorem references_children_eq : ∀ (count : Nat) (children : List aiNode),
    aiNode.references_children count children =
      ((children.take count).map aiNode.references).flatten
  | 0, _ => by simp [aiNode.references_children]
  | _ + 1, [] => by simp [aiNode.references_children]
  | count + 1, child :: rest => by
    simp [aiNode.references_children, references_children_eq count rest]

theorem total_meshes_children_eq : ∀ (count : Nat) (children : List aiNode),
    aiNode.total_meshes_children count children =
      ((children.take count).map aiNode.total_meshes).sum
  | 0, _ => by simp [aiNode.total_meshes_children]
  | _ + 1, [] => by simp [aiNode.total_meshes_children]
  | count + 1, child :: rest => by
    simp [aiNode.total_meshes_children, total_meshes_children_eq count rest]

mutual
theorem total_meshes_eq (scene : aiScene) : ∀ (node : aiNode), node.well_formed scene = true →
    node.total_meshes = node.references.length
  | .mk mNumMeshes mMeshes mNumChildren mChildren, hwf => by
    simp only [aiNode.well_formed, Bool.and_eq_true, decide_eq_true_eq] at hwf
    simp only [aiNode.total_meshes, aiNode.references, List.length_append, List.length_take,
      total_meshes_children_len scene mNumChildren mChildren hwf.2]
    omega
theorem total_meshes_children_len (scene : aiScene) : ∀ (count : Nat) (children : List aiNode),
    aiNode.well_formed_children scene count children = true →
    aiNode.total_meshes_children count children =
      (aiNode.references_children count children).length
  | 0, _, _ => by simp [aiNode.total_meshes_children, aiNode.references_children]
  | _ + 1, [], _ => by simp [aiNode.total_meshes_children, aiNode.references_children]
  | count + 1, child :: rest, hwf => by
    simp only [aiNode.well_formed_children, Bool.and_eq_true] at hwf
    simp only [aiNode.total_meshes_children, aiNode.references_children, List.length_append,
      total_meshes_eq scene child hwf.1, total_meshes_children_len scene count rest hwf.2]
end

theorem scan_absent (c : Char) : ∀ (s : List Char) (i : Nat) (last : Option Nat), c ∉ s →
    strrchr.scan c s i last = last := by
  intro s
  induction s with
  | nil => intro i last _; rfl
  | cons x rest ih =>
    intro i last h
    simp only [List.mem_cons, not_or] at h
    have hx : ¬ x = c := fun e => h.1 e.symm
    simp only [strrchr.scan, hx, if_false]
    exact ih _ _ h.2

theorem scan_last (c : Char) : ∀ (front back : List Char) (i : Nat) (last : Option Nat),
    c ∉ back → strrchr.scan c (front ++ c :: back) i last = some (i + front.length) := by
  intro front
  induction front with
  | nil =>
    intro back i last h
    simp only [List.nil_append, strrchr.scan, if_true, List.length_nil, Nat.add_zero]
    exact scan_absent c back _ _ h
  | cons x rest ih =>
    intro back i last h
    have := ih back (i + 1) (if x = c then some i else last) h
    rw [List.cons_append, strrchr.scan, this, List.length_cons]
    congr 1; omega

theorem last_occurrence (c : Char) : ∀ (s : List Char), c ∈ s →
    ∃ front back, s = front ++ c :: back ∧ c ∉ back := by
  intro s
  induction s with
  | nil => intro h; simp at h
  | cons x rest ih =>
    intro h
    by_cases hr : c ∈ rest
    · obtain ⟨front, back, e, hb⟩ := ih hr
      exact ⟨x :: front, back, by simp [e], hb⟩
    · have hx : c = x := by
        rcases List.mem_cons.mp h with h | h
        · exact h
        · exact absurd h hr
      exact ⟨[], rest, by simp [hx], hr⟩

theorem byte_count_append (a b : List Char) :
    byte_count (a ++ b) = byte_count a + byte_count b := by
  simp [byte_count, List.map_append, List.sum_append]

theorem copy_stops (size target : Nat) : ∀ (rest : List Char) (i : Nat) (directory : List Char),
    i ≤ target → target - i ≤ rest.length →
    byte_count (directory ++ rest.take (target - i)) ≤ size →
    Model_Load.copy size (some target) rest i directory =
      some (directory ++ rest.take (target - i)) := by
  intro rest
  induction rest with
  | nil =>
    intro i directory h1 h2 _
    have : i = target := by simp at h2; omega
    simp [Model_Load.copy, this]
  | cons c rest ih =>
    intro i directory h1 h2 h3
    by_cases h : i = target
    · simp [Model_Load.copy, h]
    · have hne : ¬ some i = some target := by simpa using h
      have e : target - i = (target - (i + 1)) + 1 := by omega
      rw [e, List.take_succ_cons] at h3
      have hfit : byte_count (directory ++ [c]) ≤ size := by
        rw [byte_count_append] at h3 ⊢
        rw [show c :: List.take (target - (i + 1)) rest = [c] ++ List.take (target - (i + 1)) rest
          from rfl, byte_count_append] at h3
        omega
      simp only [Model_Load.copy, hne, if_false, hfit, if_true]
      rw [ih (i + 1) _ (by omega) (by simp at h2; omega) (by simpa using h3)]
      rw [e, List.take_succ_cons]
      simp

theorem copy_null (size : Nat) : ∀ (rest : List Char) (i : Nat) (directory : List Char),
    Model_Load.copy size none rest i directory = none := by
  intro rest
  induction rest with
  | nil => intro i directory; simp [Model_Load.copy]
  | cons c rest ih => intro i directory; simp [Model_Load.copy, ih]

theorem directory_spec (types : Types) (model_source : String) (front back : List Char)
    (h : model_source.data = front ++ '/' :: back) (hb : '/' ∉ back)
    (hsize : byte_count (front ++ ['/']) < types.directory_size) :
    Model_Load.directory types model_source = some (String.mk (front ++ ['/'])) := by
  have hs : strrchr model_source.data '/' = some front.length := by
    rw [strrchr, h, scan_last '/' front back 0 none hb]; simp
  have ht : (front ++ '/' :: back).take (front.length + 1) = front ++ ['/'] := by
    rw [List.take_append_eq_append_take, List.take_of_length_le (by omega)]
    simp
  simp only [Model_Load.directory, hs, Option.map_some']
  rw [copy_stops types.directory_size (front.length + 1) model_source.data 0 []
    (Nat.zero_le _) (by simp [h]) (by rw [h, Nat.sub_zero, ht]; simpa using hsize.le)]
  rw [h, Nat.sub_zero, ht]
  simp [hsize]

theorem directory_null (types : Types) (model_source : String) (h : '/' ∉ model_source.data) :
    Model_Load.directory types model_source = none := by
  have hs : strrchr model_source.data '/' = none := by
    rw [strrchr, scan_absent '/' _ 0 none h]
  simp [Model_Load.directory, hs, copy_null]

theorem Model_Load_spec (types : Types) (aiImportFile : String → Option aiScene)
    (model_source : String)
    (world : World) (scene : aiScene) (front back : List Char)
    (himport : aiImportFile model_source = some scene)
    (hsrc : model_source.data = front ++ '/' :: back) (hb : '/' ∉ back)
    (hwf : scene.mRootNode.well_formed scene = true)
    (hsize : byte_count (front ++ ['/']) < types.directory_size)
    (hfit : ∀ p ∈ scene.paths scene.mRootNode.references, NameFits (String.mk (front ++ ['/'])) p)
    (hlabels : LabelsFit types)
    (h32 : scene.mRootNode.references.length < 2 ^ 32) :
    ∃ m' w', Model_Load types aiImportFile model_source world = some (m', w') ∧
      m'.meshes.length = m'.mesh_count ∧
      Processed scene
        { mesh_count := 0, meshes := [], textures_loaded := [], textures_loaded_count := 0,
          directory := String.mk (front ++ ['/']) } world scene.mRootNode.references m' w' := by
  obtain ⟨m', w', h1, h2, h3⟩ := node_spec types scene hlabels scene.mRootNode
    { mesh_count := 0, meshes := [], textures_loaded := [], textures_loaded_count := 0,
      directory := String.mk (front ++ ['/']) } world hwf (by simp) (by simp) hfit
    (by simpa using h32)
  refine ⟨m', w', ?_, h2, h3⟩
  simp only [Model_Load, directory_spec types model_source front back hsrc hb hsize, himport, h1]

theorem Model_Render_spec (model : Model) (shader_prog : GLuint) (world : World)
    (hcap : model.mesh_count ≤ model.meshes.length) :
    Model_Render model shader_prog world =
      some (model, world.after (render_calls model shader_prog)) := by
  obtain ⟨s, hs, hP⟩ := for_loop_invariant (Model_Render.mesh shader_prog)
    (fun i s => s = (model, world.after
        ((model.meshes.take i).map (fun mesh => Call.Mesh_Render mesh shader_prog))))
    model.mesh_count 0 (model, world) (by simp [World.after])
    (by
      intro i t _ hi ht
      subst ht
      have hlt : i < model.meshes.length := by omega
      have hget : model.meshes[i]? = some model.meshes[i] := List.getElem?_eq_getElem hlt
      refine ⟨(model, world.after ((model.meshes.take (i + 1)).map
        (fun mesh => Call.Mesh_Render mesh shader_prog))), ?_, rfl⟩
      simp only [Model_Render.mesh, hget, World.call, World.after, List.take_succ,
        Option.toList, List.map_append, List.map_cons, List.map_nil, List.append_assoc])
  simp only [Nat.zero_add] at hP
  rw [Model_Render, hs, hP, render_calls]

theorem iteration_quit (nanosuit : Model) (nanosuit_program : GLuint)
    (poll : Option SDL_Event) (world : World) (h : is_quit poll) :
    main.iteration nanosuit nanosuit_program poll world = some (.quit, world) := by
  cases poll with
  | none => simp [is_quit] at h
  | some event =>
    have he : event.type = SDL_QUIT := by simpa [is_quit] using h
    simp [main.iteration, he]

theorem iteration_draw (nanosuit : Model) (nanosuit_program : GLuint)
    (poll : Option SDL_Event) (world : World) (h : ¬ is_quit poll)
    (hcap : nanosuit.mesh_count ≤ nanosuit.meshes.length) :
    main.iteration nanosuit nanosuit_program poll world =
      some (.running, world.after (frame_calls nanosuit nanosuit_program)) := by
  cases poll with
  | none =>
    simp only [main.iteration, Model_Render_spec _ _ _ hcap]
    simp [World.call, World.after, frame_calls]
  | some event =>
    have : ¬ event.type = SDL_QUIT := fun he => h (by simp [is_quit, he])
    simp only [main.iteration, this, decide_False, Model_Render_spec _ _ _ hcap]
    simp [World.call, World.after, frame_calls]

theorem loop_running (nanosuit : Model) (nanosuit_program : GLuint)
    (hcap : nanosuit.mesh_count ≤ nanosuit.meshes.length) :
    ∀ (polls : List (Option SDL_Event)) (world : World) (polled : Nat),
      (∀ poll ∈ polls, ¬ is_quit poll) →
      main.loop nanosuit nanosuit_program polls world polled =
        some (.running, world.after
          (List.replicate polls.length (frame_calls nanosuit nanosuit_program)).flatten,
          polled + polls.length) := by
  intro polls
  induction polls with
  | nil => intro world polled _; simp [main.loop, World.after]
  | cons poll polls ih =>
    intro world polled h
    have h1 := iteration_draw nanosuit nanosuit_program poll world
      (h poll (List.mem_cons_self _ _)) hcap
    simp only [main.loop, h1]
    rw [ih _ _ (fun q hq => h q (List.mem_cons_of_mem _ hq))]
    simp [World.after, List.replicate_succ, Nat.add_comm, Nat.add_left_comm]

theorem loop_quit (nanosuit : Model) (nanosuit_program : GLuint)
    (hcap : nanosuit.mesh_count ≤ nanosuit.meshes.length) :
    ∀ (before : List (Option SDL_Event)) (poll : Option SDL_Event)
      (after : List (Option SDL_Event)) (world : World) (polled : Nat),
      (∀ earlier ∈ before, ¬ is_quit earlier) → is_quit poll →
      main.loop nanosuit nanosuit_program (before ++ poll :: after) world polled =
        some (.quit, world.after
          (List.replicate before.length (frame_calls nanosuit nanosuit_program)).flatten,
          polled + before.length + 1) := by
  intro before
  induction before with
  | nil =>
    intro poll after world polled _ hq
    simp [main.loop, iteration_quit _ _ _ _ hq, World.after]
  | cons first before ih =>
    intro poll after world polled h hq
    have h1 := iteration_draw nanosuit nanosuit_program first world
      (h first (List.mem_cons_self _ _)) hcap
    have h2 := ih poll after (world.after (frame_calls nanosuit nanosuit_program)) (polled + 1)
      (fun q hq => h q (List.mem_cons_of_mem _ hq)) hq
    rw [List.cons_append, main.loop, h1]
    simp only [h2]
    simp [World.after, List.replicate_succ, Nat.add_comm, Nat.add_left_comm]

theorem block_split {α : Type} (block : List α) (first last : Nat) (h : first ≤ last) :
    block.take first ++ (block.drop first).take (last - first) ++ block.drop last = block := by
  have e : block.drop last = (block.drop first).drop (last - first) := by
    rw [List.drop_drop]; congr 1; omega
  rw [e, List.append_assoc, List.take_append_drop, List.take_append_drop]

theorem loaded_count (m : Model) (h : m.textures_loaded_count ≤ m.textures_loaded.length) :
    m.loaded_paths.length = m.textures_loaded_count := by
  simp [Model.loaded_paths, h]

theorem nodup_of_paths_loaded {m m' : Model} {w w' : World} {paths : List String}
    (h : PathsLoaded m w paths m' w') (hinv : m.loaded_paths.Nodup) :
    m'.loaded_paths.Nodup := by
  obtain ⟨new, n1, _, n3, n4, _⟩ := h
  rw [n1, List.nodup_append]
  exact ⟨hinv, n3, fun p hp1 hp2 => (n4 p hp2).2 hp1⟩

theorem frames_in_frame (nanosuit : Model) (nanosuit_program : GLuint) :
    frames_presented (frame_calls nanosuit nanosuit_program) = 1 := by
  have h : List.count Call.SDL_GL_SwapWindow (render_calls nanosuit nanosuit_program) = 0 := by
    rw [List.count_eq_zero]
    intro hmem
    obtain ⟨mesh, _, hm⟩ := List.mem_map.mp hmem
    cases hm
  simp only [frames_presented, frame_calls, List.count_append, h]
  simp [List.count_cons]

theorem frames_in_frames (nanosuit : Model) (nanosuit_program : GLuint) (n : Nat) :
    frames_presented (List.replicate n (frame_calls nanosuit nanosuit_program)).flatten = n := by
  induction n with
  | zero => simp [frames_presented]
  | succ n ih =>
    have h1 := frames_in_frame nanosuit nanosuit_program
    simp only [frames_presented] at ih h1 ⊢
    rw [List.replicate_succ, List.flatten_cons, List.count_append, ih, h1]
    omega


/-! ## The claims -/

/-- C1. `Model_ProcessNode` on the root of a well-formed tree, from an empty
model, returns with `meshes` holding, entry by entry, the transcriptions of
the scene meshes in the depth-first pre-order flattening of the tree (a
node's own references in index order, then each child subtree in child
order), and with `mesh_count` equal to the sum of `mNumMeshes` over all nodes.
The strings copied on the way stay inside their arrays: every texture path
referenced, behind the model's directory and with its terminator, fits the
100 bytes of `filename`, and the four type labels fit `type`; the number of
mesh references is below `2 ^ 32`, the range of the `GLuint` counter. -/
theorem C1_meshes_are_preorder_flattening (types : Types) (scene : aiScene) (root : aiNode)
    (model : Model)
    (world : World) (hwf : root.well_formed scene = true) (hcount : model.mesh_count = 0)
    (hmeshes : model.meshes = [])
    (hloaded_count : model.textures_loaded_count = 0)
    (hfit : ∀ p ∈ scene.paths root.references, NameFits model.directory p)
    (hlabels : LabelsFit types)
    (h32 : root.references.length < 2 ^ 32) :
    ∃ model' world', Model_ProcessNode types scene root (model, world) = some (model', world') ∧
      List.Forall₂ (Transcribed scene) root.references model'.meshes ∧
      model'.mesh_count = root.total_meshes ∧
      model'.mesh_count = root.references.length ∧
      model'.meshes.length = model'.mesh_count ∧
      ∀ mNumMeshes mMeshes mNumChildren mChildren,
        (aiNode.mk mNumMeshes mMeshes mNumChildren mChildren).references =
          mMeshes.take mNumMeshes ++
            ((mChildren.take mNumChildren).map aiNode.references).flatten := by
  obtain ⟨m', w', h1, h2, h3⟩ := node_spec types scene hlabels root model world hwf
    (by simp [hcount]) (by simp [hloaded_count]) hfit (by rw [hcount]; simpa using h32)
  obtain ⟨_, c, _, _, ⟨added, a1, a2, _⟩, _⟩ := h3
  refine ⟨m', w', h1, ?_, ?_, ?_, h2, ?_⟩
  · have : m'.meshes = added := by
      rw [← h2, List.take_length, hmeshes] at a1
      simpa using a1
    rw [this]; exact a2
  · rw [c, hcount, total_meshes_eq scene root hwf]; simp
  · rw [c, hcount]; simp
  · intro n ms c cs
    simp [aiNode.references, references_children_eq]

/-- C3. After `Model_ProcessMesh` the new mesh has `vertex_count` equal to
`mNumVertices`, its vertex array has that many entries, and entry `i` is the
copy of source vertex `i`: position, normal, tangent and bitangent component
for component, texture coordinates from channel 0 when it is present and
`(0, 0)` when it is absent.  The mesh is well formed, its material exists,
and the strings the call copies stay inside their arrays (the material's
texture paths behind the directory in `filename`, the labels in `type`). -/
theorem C3_vertices_are_copied (types : Types) (model : Model) (ai_mesh : aiMesh)
    (scene : aiScene) (world : World) (material : aiMaterial)
    (hslot : model.mesh_count < model.meshes.length) (hwf : ai_mesh.WellFormed)
    (hmat : scene.mMaterials[ai_mesh.mMaterialIndex]? = some material)
    (hc : model.textures_loaded_count ≤ model.textures_loaded.length)
    (hfit : ∀ p ∈ material.queried_paths, NameFits model.directory p)
    (hlabels : LabelsFit types) :
    ∃ model' world' mesh,
      Model_ProcessMesh types model ai_mesh scene world = some (model', world') ∧
      model'.meshes[model.mesh_count]? = some mesh ∧
      mesh.vertex_count = ai_mesh.mNumVertices ∧
      mesh.vertices.length = mesh.vertex_count ∧
      ∀ i, i < mesh.vertex_count → ∃ v, mesh.vertices[i]? = some v ∧
        (∃ p, ai_mesh.mVertices[i]? = some p ∧ v.position = (p.x, p.y, p.z)) ∧
        (∃ n, ai_mesh.mNormals[i]? = some n ∧ v.normal = (n.x, n.y, n.z)) ∧
        (∃ t, ai_mesh.mTangents[i]? = some t ∧ v.tangent = (t.x, t.y, t.z)) ∧
        (∃ b, ai_mesh.mBitangents[i]? = some b ∧ v.bitangent = (b.x, b.y, b.z)) ∧
        (∀ coords, ai_mesh.mTextureCoords0 = some coords →
          ∃ c, coords[i]? = some c ∧ v.texcoords = (c.x, c.y)) ∧
        (ai_mesh.mTextureCoords0 = none → v.texcoords = (0, 0)) := by
  obtain ⟨mesh, m1, w1, h1, h2, h3⟩ := Model_ProcessMesh_spec types model ai_mesh scene world
    material hslot hwf hmat hc hfit hlabels
  obtain ⟨v1, v2, v3, _⟩ := h2
  refine ⟨_, _, mesh, h1, stored_mesh m1 mesh _ h3.1 (by rw [h3.2.1]; exact hslot), v1,
    by rw [v2, v1], ?_⟩
  intro i hi
  exact v3 i (by rw [← v1]; exact hi)

/-- C4. No two loaded textures have the same path: this holds for the empty
model and is preserved by every call of `Model_LoadMaterialTextures`.  During
one `Model_Load` no path is passed to `Model_TextureFromFile` twice, and the
final `textures_loaded_count` is the number of distinct texture paths that the
materials of the processed meshes reference under the four queried types.
Here `model_source` is `front`, its last `/` and `back`; the directory with
its terminator fits `directory`, every texture path behind the directory fits
the 100 bytes of `filename`, the labels fit `type`, and the number of mesh
references is below `2 ^ 32`. -/
theorem C4_texture_deduplication (types : Types) (aiImportFile : String → Option aiScene)
    (model_source : String) (world : World) (scene : aiScene) (front back : List Char)
    (himport : aiImportFile model_source = some scene)
    (hsrc : model_source.data = front ++ '/' :: back) (hback : '/' ∉ back)
    (hwf : scene.mRootNode.well_formed scene = true)
    (hsize : byte_count (front ++ ['/']) < types.directory_size)
    (hfit : ∀ p ∈ scene.paths scene.mRootNode.references,
      NameFits (String.mk (front ++ ['/'])) p)
    (hlabels : LabelsFit types)
    (h32 : scene.mRootNode.references.length < 2 ^ 32)
    (model : Model) (textures : List Texture) (start_index end_index : Nat)
    (material : aiMaterial) (type : aiTextureType) (type_name : String) (call_world : World)
    (hrange : start_index ≤ end_index) (hblock : end_index ≤ textures.length)
    (hcount : end_index - start_index ≤ aiGetMaterialTextureCount material type)
    (hloaded : model.textures_loaded_count ≤ model.textures_loaded.length)
    (hinv : model.loaded_paths.Nodup)
    (hcall : ∀ p ∈ material.textures type, NameFits model.directory p)
    (hlabel : strlen type_name + 1 ≤ types.type_size) :
    (∀ empty : Model, empty.textures_loaded_count = 0 → empty.loaded_paths.Nodup) ∧
    (∃ s', Model_LoadMaterialTextures types model textures start_index end_index material type
        type_name call_world = some s' ∧ s'.model.loaded_paths.Nodup) ∧
    ∃ model' world' new,
      Model_Load types aiImportFile model_source world = some (model', world') ∧
      model'.loaded_paths.Nodup ∧
      model'.loaded_paths.length = model'.textures_loaded_count ∧
      texture_loads world'.calls = texture_loads world.calls ++ new ∧
      (∀ path, new.count path ≤ 1) ∧
      model'.textures_loaded_count = (scene.paths scene.mRootNode.references).dedup.length := by
  refine ⟨?_, ?_, ?_⟩
  · intro empty h
    simp [Model.loaded_paths, h]
  · obtain ⟨s', mid', h1, _, _, _, h5⟩ := Model_LoadMaterialTextures_spec types model
      start_index
      end_index material type type_name call_world (textures.take start_index)
      ((textures.drop start_index).take (end_index - start_index)) (textures.drop end_index)
      (by simp; omega) hrange (by simp; omega) hcount hloaded
      (fun p hp => hcall p (List.mem_of_mem_take hp)) hlabel
    rw [block_split textures start_index end_index hrange] at h1
    exact ⟨s', h1, nodup_of_paths_loaded h5.2.2.2.2.2.2 hinv⟩
  · obtain ⟨m', w', h1, _, h3⟩ := Model_Load_spec types aiImportFile model_source world scene
      front back himport hsrc hback hwf hsize hfit hlabels h32
    obtain ⟨_, _, _, c, _, _, new, n1, n2, n3, n4, n5⟩ := h3
    have e : m'.loaded_paths = new := by
      rw [n1]; simp [Model.loaded_paths]
    refine ⟨m', w', new, h1, by rw [e]; exact n3, loaded_count m' c, n2, ?_, ?_⟩
    · intro path
      exact List.nodup_iff_count_le_one.mp n3 path
    · rw [← loaded_count m' c, e]
      apply List.Perm.length_eq
      rw [List.perm_ext_iff_of_nodup n3 (List.nodup_dedup _)]
      intro p
      rw [List.mem_dedup]
      constructor
      · intro hp; exact (n4 p hp).1
      · intro hp
        have := n5 p hp
        simpa [Model.loaded_paths] using this

/-- C5. After `Model_ProcessMesh` the new mesh has `texture_count` equal to the
sum of the material's diffuse, specular, height and ambient texture counts.
The four calls of `Model_LoadMaterialTextures` fill the adjacent ranges of the
texture block in the order diffuse, specular, height, ambient, each writing
exactly its own slots with its cursor ending at `end_index`; over the whole
mesh every slot `0 .. texture_count - 1` is written exactly once; and the
paths of the stored textures are the material's paths of the four types, in
that order.  The strings the call copies stay inside their arrays: the
material's texture paths behind the directory in the 100 bytes of `filename`,
the labels in `type`. -/
theorem C5_texture_slots_filled_once (types : Types) (model : Model) (ai_mesh : aiMesh)
    (scene : aiScene)
    (world : World) (material : aiMaterial) (hslot : model.mesh_count < model.meshes.length)
    (hwf : ai_mesh.WellFormed)
    (hmat : scene.mMaterials[ai_mesh.mMaterialIndex]? = some material)
    (hc : model.textures_loaded_count ≤ model.textures_loaded.length)
    (hfit : ∀ p ∈ material.queried_paths, NameFits model.directory p)
    (hlabels : LabelsFit types) :
    ∃ model' world' mesh s0 s1 s2 s3,
      Model_ProcessMesh types model ai_mesh scene world = some (model', world') ∧
      model'.meshes[model.mesh_count]? = some mesh ∧
      mesh.texture_count = aiGetMaterialTextureCount material .DIFFUSE +
        aiGetMaterialTextureCount material .SPECULAR +
        aiGetMaterialTextureCount material .HEIGHT +
        aiGetMaterialTextureCount material .AMBIENT ∧
      mesh.textures.length = mesh.texture_count ∧
      Fills types model (malloc mesh.texture_count)
        (world.heap_op (.write_mesh model.mesh_count model.meshes.length)) 0
        (aiGetMaterialTextureCount material .DIFFUSE) material .DIFFUSE "texture_diffuse" s0 ∧
      Fills types s0.model s0.textures s0.world (aiGetMaterialTextureCount material .DIFFUSE)
        (aiGetMaterialTextureCount material .DIFFUSE +
          aiGetMaterialTextureCount material .SPECULAR)
        material .SPECULAR "texture_specular" s1 ∧
      Fills types s1.model s1.textures s1.world
        (aiGetMaterialTextureCount material .DIFFUSE +
          aiGetMaterialTextureCount material .SPECULAR)
        (aiGetMaterialTextureCount material .DIFFUSE +
          aiGetMaterialTextureCount material .SPECULAR +
          aiGetMaterialTextureCount material .HEIGHT)
        material .HEIGHT "texture_normal" s2 ∧
      Fills types s2.model s2.textures s2.world
        (aiGetMaterialTextureCount material .DIFFUSE +
          aiGetMaterialTextureCount material .SPECULAR +
          aiGetMaterialTextureCount material .HEIGHT)
        mesh.texture_count material .AMBIENT "texture_height" s3 ∧
      mesh.textures = s3.textures ∧
      world'.heap = world.heap ++ HeapOp.write_mesh model.mesh_count model.meshes.length ::
        (List.range mesh.texture_count).map HeapOp.write_texture ∧
      mesh.textures.map Texture.path = material.textures .DIFFUSE ++
        material.textures .SPECULAR ++ material.textures .HEIGHT ++
        material.textures .AMBIENT := by
  obtain ⟨mesh, t0, t1, t2, t3, s0, s1, s2, s3, h1, h2, h3, p0, p1, p2, p3, h8, f0, f1, f2, f3,
      hfinal⟩ :=
    Model_ProcessMesh_detail types model ai_mesh scene world material hslot hwf hmat hc hfit
      hlabels
  obtain ⟨_, _, _, _, _, c1, c2⟩ := h2
  have hq : material.queried_paths.length = aiGetMaterialTextureCount material .DIFFUSE +
      aiGetMaterialTextureCount material .SPECULAR +
      aiGetMaterialTextureCount material .HEIGHT +
      aiGetMaterialTextureCount material .AMBIENT := by
    simp [aiMaterial.queried_paths, aiGetMaterialTextureCount, Nat.add_assoc]
  refine ⟨_, _, mesh, s0, s1, s2, s3, h1,
    stored_mesh s3.model mesh _ h8.1 (by rw [h8.2.1]; exact hslot), c1.trans hq, ?_, ?_, ?_, ?_,
    ?_, ?_, ?_, ?_⟩
  · have hlen := congrArg List.length c2
    rw [List.length_map] at hlen
    rw [c1, hlen]
  · rw [c1]; exact f0
  · exact f1
  · exact f2
  · rw [c1]; exact f3
  · exact hfinal.symm
  · rw [c1]
    simp [World.call, h8.2.2.2.2.1, World.heap_op]
  · rw [c2]; rfl

/-- C6, at the failing input: the sample material uses `a.png` as a diffuse and
as a specular texture; after `Model_ProcessMesh` slot 2, the specular range,
holds the texture loaded for the diffuse range, labelled `texture_diffuse`. -/
theorem C6_reused_texture_keeps_first_label :
    (Model_ProcessMesh sample_types sample_model sample_mesh sample_scene sample_world).map
        (fun r => r.1.meshes.map Mesh.textures) =
      some [[{ id := 1, type := "texture_diffuse", path := "a.png" },
             { id := 2, type := "texture_diffuse", path := "b.png" },
             { id := 1, type := "texture_diffuse", path := "a.png" },
             { id := 3, type := "texture_normal", path := "n.png" }]] ∧
    aiGetMaterialTextureCount sample_material .DIFFUSE = 2 ∧
    aiGetMaterialTexture sample_material .SPECULAR 0 = some "a.png" := by
  decide

/-- C7. During `Model_Load`, `Mesh_Setup` is called exactly once for each
entry of `model->meshes`, in array order, with the entry as it is finally
stored (its vertices, indices and textures filled).  Every `Model_Render`
calls `Mesh_Render` once for each of the `mesh_count` meshes, in array order,
with the given shader program, calls nothing else (so `Mesh_Setup` zero
times), and returns the model unchanged.  Here `model_source` is `front`,
its last `/` and `back`; the directory with its terminator fits `directory`,
every texture path behind the directory fits the 100 bytes of `filename`, the
labels fit `type`, and the number of mesh references is below `2 ^ 32`. -/
theorem C7_setup_once_render_each (types : Types) (aiImportFile : String → Option aiScene)
    (model_source : String) (world : World) (scene : aiScene) (front back : List Char)
    (himport : aiImportFile model_source = some scene)
    (hsrc : model_source.data = front ++ '/' :: back) (hback : '/' ∉ back)
    (hwf : scene.mRootNode.well_formed scene = true)
    (hsize : byte_count (front ++ ['/']) < types.directory_size)
    (hfit : ∀ p ∈ scene.paths scene.mRootNode.references,
      NameFits (String.mk (front ++ ['/'])) p)
    (hlabels : LabelsFit types)
    (h32 : scene.mRootNode.references.length < 2 ^ 32)
    (model : Model) (shader_prog : GLuint) (render_world : World)
    (hcap : model.mesh_count ≤ model.meshes.length) :
    (∃ model' world',
      Model_Load types aiImportFile model_source world = some (model', world') ∧
      mesh_setups world'.calls = mesh_setups world.calls ++ model'.meshes ∧
      List.Forall₂ (Transcribed scene) scene.mRootNode.references model'.meshes ∧
      model'.mesh_count = model'.meshes.length) ∧
    ∃ world', Model_Render model shader_prog render_world = some (model, world') ∧
      world'.calls = render_world.calls ++
        (model.meshes.take model.mesh_count).map (fun mesh => Call.Mesh_Render mesh shader_prog) ∧
      ((model.meshes.take model.mesh_count).map
        (fun mesh => Call.Mesh_Render mesh shader_prog)).length = model.mesh_count ∧
      mesh_setups world'.calls = mesh_setups render_world.calls ∧
      world'.heap = render_world.heap := by
  constructor
  · obtain ⟨m', w', h1, h2, h3⟩ := Model_Load_spec types aiImportFile model_source world scene
      front back himport hsrc hback hwf hsize hfit hlabels h32
    obtain ⟨_, _, _, _, ⟨added, a1, a2, a3⟩, _⟩ := h3
    have e : m'.meshes = added := by
      rw [← h2, List.take_length] at a1
      simpa using a1
    exact ⟨m', w', h1, by rw [a3, e], by rw [e]; exact a2, h2.symm⟩
  · refine ⟨_, Model_Render_spec model shader_prog render_world hcap, rfl, ?_, ?_, rfl⟩
    · simp [hcap]
    · have hnone : mesh_setups (render_calls model shader_prog) = [] := by
        rw [mesh_setups, List.filterMap_eq_nil_iff]
        intro c hc
        obtain ⟨mesh, _, rfl⟩ := List.mem_map.mp hc
        rfl
      simp [World.after, mesh_setups, List.filterMap_append] at hnone ⊢
      exact hnone

/-- C8. Run against the successive poll results, the loop of `main` stops at
the first poll that returns an event of type quit and not before; that
iteration makes no call; every earlier iteration makes exactly the calls
clear, use program, `Camera_Render`, `Model_Render`, unuse program, swap; the
number of frames presented is the number of polls before the quit event; and
the loop state is either running or quit. -/
theorem C8_loop_stops_at_first_quit (nanosuit : Model) (nanosuit_program : GLuint)
    (world : World) (before : List (Option SDL_Event)) (poll : Option SDL_Event)
    (after : List (Option SDL_Event)) (hcap : nanosuit.mesh_count ≤ nanosuit.meshes.length)
    (hbefore : ∀ earlier ∈ before, ¬ is_quit earlier) (hquit : is_quit poll) :
    (∃ world', main.loop nanosuit nanosuit_program (before ++ poll :: after) world 0 =
        some (.quit, world', before.length + 1) ∧
      world'.calls = world.calls ++
        (List.replicate before.length (frame_calls nanosuit nanosuit_program)).flatten ∧
      frames_presented world'.calls = frames_presented world.calls + before.length) ∧
    (∀ k, k ≤ before.length → ∃ world',
      main.loop nanosuit nanosuit_program (before.take k) world 0 = some (.running, world', k)) ∧
    (∀ w, main.iteration nanosuit nanosuit_program poll w = some (.quit, w)) ∧
    (∀ earlier ∈ before, ∀ w, main.iteration nanosuit nanosuit_program earlier w =
      some (.running, w.after (frame_calls nanosuit nanosuit_program))) ∧
    frame_calls nanosuit nanosuit_program =
      [.glClear, .glUseProgram nanosuit_program, .Camera_Render nanosuit_program] ++
        (nanosuit.meshes.take nanosuit.mesh_count).map
          (fun mesh => Call.Mesh_Render mesh nanosuit_program) ++
        [.glUseProgram 0, .SDL_GL_SwapWindow] ∧
    ∀ state : LoopState, state = .running ∨ state = .quit := by
  refine ⟨⟨world.after
    (List.replicate before.length (frame_calls nanosuit nanosuit_program)).flatten, ?_, rfl,
    ?_⟩, ?_, ?_, ?_, rfl, ?_⟩
  · have := loop_quit nanosuit nanosuit_program hcap before poll after world 0 hbefore hquit
    simpa using this
  · simp only [World.after, frames_presented, List.count_append]
    have := frames_in_frames nanosuit nanosuit_program before.length
    simp only [frames_presented] at this
    rw [this]
  · intro k hk
    have := loop_running nanosuit nanosuit_program hcap (before.take k) world 0
      (fun q hq => hbefore q (List.mem_of_mem_take hq))
    rw [List.length_take, Nat.min_eq_left hk, Nat.zero_add] at this
    exact ⟨_, this⟩
  · intro w
    exact iteration_quit nanosuit nanosuit_program poll w hquit
  · intro earlier he w
    exact iteration_draw nanosuit nanosuit_program earlier w (hbefore earlier he) hcap
  · intro state
    cases state
    · exact Or.inl rfl
    · exact Or.inr rfl

set_option maxRecDepth 8000 in
/-- C9, at the failing input: a model loaded from `Objects/Nanosuit/nanosuit.obj`
whose material names a diffuse texture by a path of 120 bytes.  The source has
a `/`, the directory `Objects/Nanosuit/` is copied and fits, the scene is well
formed and the labels fit; the file name, directory followed by path, needs
138 bytes with its terminator, `strcat` writes past the 100 bytes of
`filename`, and neither `Model_TextureFromFile` nor `Model_Load` gives a
result.  With the short paths of the sample scene the same load returns. -/
theorem C9_long_file_name_overruns_buffer :
    '/' ∈ sample_source.data ∧
    Model_Load.directory sample_types sample_source = some "Objects/Nanosuit/" ∧
    sample_long_scene.mRootNode.well_formed sample_long_scene = true ∧
    LabelsFit sample_types ∧
    aiGetMaterialTexture sample_long_material .DIFFUSE 0 = some sample_long_path ∧
    strlen "Objects/Nanosuit/" = 17 ∧ strlen sample_long_path = 120 ∧
    strcpy 100 "Objects/Nanosuit/" = some "Objects/Nanosuit/" ∧
    strcat 100 "Objects/Nanosuit/" sample_long_path = none ∧
    (Model_TextureFromFile sample_long_path "Objects/Nanosuit/" false sample_world).isNone =
      true ∧
    (Model_Load sample_types sample_long_import sample_source sample_world).isNone = true ∧
    (Model_Load sample_types sample_import sample_source sample_world).isSome = true := by
  refine ⟨by decide, by decide, by decide, by decide, by decide, by decide, by decide,
    by decide, by decide, by decide, by decide, ?_⟩
  obtain ⟨m', w', h, _⟩ := Model_Load_spec sample_types sample_import sample_source
    sample_world sample_scene "Objects/Nanosuit".data "nanosuit.obj".data rfl (by decide)
    (by decide) (by decide) (by decide) (by decide) (by decide) (by decide)
  rw [h]
  rfl

/-- C10. `Model_ProcessNode` returns on every well-formed finite tree; every
write of `Model_ProcessMesh` through `&model->meshes[mesh_count]` falls inside
the block (`mesh_count < capacity`), there being one such write per mesh
reference, at the successive indices from the old `mesh_count` on; no resize
requests fewer elements than the current `mesh_count`, and the meshes stored
before are kept; and on return `mesh_count` equals the capacity.  The size
requested from `realloc` is the 32-bit sum the code computes; `mesh_count`
and the mesh references of the tree together stay below `2 ^ 32`, and the
strings copied on the way stay inside their arrays (texture paths behind the
directory in the 100 bytes of `filename`, labels in `type`). -/
theorem C10_mesh_block_capacity (types : Types) (scene : aiScene) (root : aiNode)
    (model : Model)
    (world : World) (hwf : root.well_formed scene = true)
    (hcap : model.mesh_count ≤ model.meshes.length)
    (hloaded : model.textures_loaded_count ≤ model.textures_loaded.length)
    (hfit : ∀ p ∈ scene.paths root.references, NameFits model.directory p)
    (hlabels : LabelsFit types)
    (h32 : model.mesh_count + root.references.length < 2 ^ 32) :
    ∃ model' world' ops,
      Model_ProcessNode types scene root (model, world) = some (model', world') ∧
      world'.heap = world.heap ++ ops ∧
      (∀ index capacity, HeapOp.write_mesh index capacity ∈ ops → index < capacity) ∧
      mesh_writes ops = List.range' model.mesh_count root.references.length ∧
      (∀ mesh_count requested, HeapOp.realloc_meshes mesh_count requested ∈ ops →
        mesh_count ≤ requested) ∧
      model'.mesh_count = model'.meshes.length ∧
      model'.meshes.take model.mesh_count = model.meshes.take model.mesh_count := by
  obtain ⟨m', w', h1, h2, h3⟩ := node_spec types scene hlabels root model world hwf hcap
    hloaded hfit h32
  obtain ⟨_, c, _, _, ⟨added, a1, _, _⟩, ⟨ops, o1, o2, o3⟩, _⟩ := h3
  refine ⟨m', w', ops, h1, o1, fun i cap h => o2 _ h, o3, fun c r h => o2 _ h, h2.symm, ?_⟩
  have := congrArg (List.take model.mesh_count) a1
  rw [List.take_take, Nat.min_eq_left (by omega),
    List.take_append_of_le_length (by simp [hcap]), List.take_take, Nat.min_self] at this
  exact this

/-! ## The claims at sample inputs -/

/-- C1 at the sample scene: the three mesh references of the tree give three meshes. -/
theorem C1_meshes_are_preorder_flattening_witness :
    sample_scene.mRootNode.well_formed sample_scene = true ∧ sample_empty.mesh_count = 0 ∧
    sample_empty.meshes = [] ∧ sample_empty.textures_loaded_count = 0 ∧
    (∀ p ∈ sample_scene.paths sample_scene.mRootNode.references,
      NameFits sample_empty.directory p) ∧
    LabelsFit sample_types ∧ sample_scene.mRootNode.references.length < 2 ^ 32 ∧
    ∃ model' world',
      Model_ProcessNode sample_types sample_scene sample_scene.mRootNode
        (sample_empty, sample_world) = some (model', world') ∧
      model'.mesh_count = 3 ∧ model'.meshes.length = 3 ∧
      List.Forall₂ (Transcribed sample_scene) [0, 0, 0] model'.meshes := by
  refine ⟨by decide, rfl, rfl, rfl, by decide, by decide, by decide, ?_⟩
  obtain ⟨m', w', h1, h2, h3, _, h5, _⟩ := C1_meshes_are_preorder_flattening sample_types
    sample_scene sample_scene.mRootNode sample_empty sample_world (by decide) rfl rfl rfl
    (by decide) (by decide) (by decide)
  have e : sample_scene.mRootNode.total_meshes = 3 := by decide
  have r : sample_scene.mRootNode.references = [0, 0, 0] := by decide
  exact ⟨m', w', h1, by rw [h3, e], by rw [h5, h3, e], by rw [← r]; exact h2⟩

/-- C3 at the sample mesh: two vertices are copied. -/
theorem C3_vertices_are_copied_witness :
    sample_model.mesh_count < sample_model.meshes.length ∧ sample_mesh.WellFormed ∧
    sample_scene.mMaterials[sample_mesh.mMaterialIndex]? = some sample_material ∧
    sample_model.textures_loaded_count ≤ sample_model.textures_loaded.length ∧
    (∀ p ∈ sample_material.queried_paths, NameFits sample_model.directory p) ∧
    LabelsFit sample_types ∧
    ∃ model' world' mesh,
      Model_ProcessMesh sample_types sample_model sample_mesh sample_scene sample_world =
        some (model', world') ∧
      model'.meshes[0]? = some mesh ∧ mesh.vertex_count = 2 ∧ mesh.vertices.length = 2 := by
  refine ⟨by decide, by decide, rfl, by decide, by decide, by decide, ?_⟩
  obtain ⟨m', w', mesh, h1, h2, h3, h4, _⟩ := C3_vertices_are_copied
    sample_types sample_model sample_mesh sample_scene sample_world sample_material (by decide)
    (by decide) rfl (by decide) (by decide) (by decide)
  exact ⟨m', w', mesh, h1, h2, h3, by rw [h4, h3]; rfl⟩

/-- C4 at the sample scene: three meshes reference `a.png`, `b.png`, `a.png`
and `n.png` each, and three textures are loaded. -/
theorem C4_texture_deduplication_witness :
    sample_import sample_source = some sample_scene ∧
    sample_source.data = "Objects/Nanosuit".data ++ '/' :: "nanosuit.obj".data ∧
    '/' ∉ "nanosuit.obj".data ∧
    sample_scene.mRootNode.well_formed sample_scene = true ∧
    byte_count ("Objects/Nanosuit".data ++ ['/']) < sample_types.directory_size ∧
    (∀ p ∈ sample_scene.paths sample_scene.mRootNode.references,
      NameFits (String.mk ("Objects/Nanosuit".data ++ ['/'])) p) ∧
    LabelsFit sample_types ∧ sample_scene.mRootNode.references.length < 2 ^ 32 ∧
    (0 : Nat) ≤ 2 ∧ 2 ≤ ([default, default] : List Texture).length ∧
    2 - 0 ≤ aiGetMaterialTextureCount sample_material .DIFFUSE ∧
    sample_empty.textures_loaded_count ≤ sample_empty.textures_loaded.length ∧
    sample_empty.loaded_paths.Nodup ∧
    (∀ p ∈ sample_material.textures .DIFFUSE, NameFits sample_empty.directory p) ∧
    strlen "texture_diffuse" + 1 ≤ sample_types.type_size ∧
    ∃ model' world',
      Model_Load sample_types sample_import sample_source sample_world =
        some (model', world') ∧
      model'.textures_loaded_count = 3 := by
  refine ⟨rfl, by decide, by decide, by decide, by decide, by decide, by decide, by decide,
    by decide, by decide, by decide, by decide, by decide, by decide, by decide, ?_⟩
  obtain ⟨_, _, m', w', new, h1, _, _, _, _, h6⟩ := C4_texture_deduplication sample_types
    sample_import sample_source sample_world sample_scene "Objects/Nanosuit".data
    "nanosuit.obj".data rfl (by decide) (by decide) (by decide) (by decide) (by decide)
    (by decide) (by decide) sample_empty
    [default, default] 0 2 sample_material .DIFFUSE "texture_diffuse" sample_world (by decide)
    (by decide) (by decide) (by decide) (by decide) (by decide) (by decide)
  exact ⟨m', w', h1, by rw [h6]; decide⟩

/-- C5 at the sample mesh: the material has 2 + 1 + 1 + 0 textures. -/
theorem C5_texture_slots_filled_once_witness :
    sample_model.mesh_count < sample_model.meshes.length ∧ sample_mesh.WellFormed ∧
    sample_scene.mMaterials[sample_mesh.mMaterialIndex]? = some sample_material ∧
    sample_model.textures_loaded_count ≤ sample_model.textures_loaded.length ∧
    (∀ p ∈ sample_material.queried_paths, NameFits sample_model.directory p) ∧
    LabelsFit sample_types ∧
    ∃ model' world' mesh,
      Model_ProcessMesh sample_types sample_model sample_mesh sample_scene sample_world =
        some (model', world') ∧
      model'.meshes[0]? = some mesh ∧ mesh.texture_count = 4 ∧
      mesh.textures.map Texture.path = ["a.png", "b.png", "a.png", "n.png"] := by
  refine ⟨by decide, by decide, rfl, by decide, by decide, by decide, ?_⟩
  obtain ⟨m', w', mesh, _, _, _, _, h1, h2, h3, _, _, _, _, _, _, _, h11⟩ :=
    C5_texture_slots_filled_once sample_types sample_model sample_mesh sample_scene sample_world
      sample_material (by decide) (by decide) rfl (by decide) (by decide) (by decide)
  exact ⟨m', w', mesh, h1, h2, by rw [h3]; decide, by rw [h11]; decide⟩

/-- C7 at the sample scene and a model with one stored mesh. -/
theorem C7_setup_once_render_each_witness :
    sample_import sample_source = some sample_scene ∧
    sample_source.data = "Objects/Nanosuit".data ++ '/' :: "nanosuit.obj".data ∧
    '/' ∉ "nanosuit.obj".data ∧
    sample_scene.mRootNode.well_formed sample_scene = true ∧
    byte_count ("Objects/Nanosuit".data ++ ['/']) < sample_types.directory_size ∧
    (∀ p ∈ sample_scene.paths sample_scene.mRootNode.references,
      NameFits (String.mk ("Objects/Nanosuit".data ++ ['/'])) p) ∧
    LabelsFit sample_types ∧ sample_scene.mRootNode.references.length < 2 ^ 32 ∧
    sample_stored.mesh_count ≤ sample_stored.meshes.length ∧
    (∃ model' world',
      Model_Load sample_types sample_import sample_source sample_world =
        some (model', world') ∧
      (mesh_setups world'.calls).length = 3 ∧ model'.mesh_count = 3) ∧
    ∃ world', Model_Render sample_stored 7 sample_world = some (sample_stored, world') ∧
      world'.calls = [Call.Mesh_Render default 7] := by
  refine ⟨rfl, by decide, by decide, by decide, by decide, by decide, by decide, by decide,
    by decide, ?_⟩
  obtain ⟨⟨m', w', l1, l2, l3, l4⟩, w'', h1, h2, _⟩ := C7_setup_once_render_each sample_types
    sample_import sample_source
    sample_world sample_scene "Objects/Nanosuit".data "nanosuit.obj".data rfl (by decide)
    (by decide) (by decide) (by decide) (by decide) (by decide) (by decide) sample_stored 7
    sample_world (by decide)
  have r : sample_scene.mRootNode.references.length = 3 := by decide
  have hlen : m'.meshes.length = 3 := by
    rw [← List.Forall₂.length_eq l3, r]
  refine ⟨⟨m', w', l1, ?_, by rw [l4, hlen]⟩, w'', h1, by rw [h2]; decide⟩
  rw [l2]
  simpa [mesh_setups, sample_world] using hlen

/-- C8 at the polls: no event, a key event, the quit event, no event. -/
theorem C8_loop_stops_at_first_quit_witness :
    sample_stored.mesh_count ≤ sample_stored.meshes.length ∧
    (∀ earlier ∈ [none, some { type := 3 }], ¬ is_quit earlier) ∧
    is_quit (some { type := SDL_QUIT }) ∧
    ∃ world', main.loop sample_stored 7
        ([none, some { type := 3 }] ++ some { type := SDL_QUIT } :: [none]) sample_world 0 =
        some (.quit, world', 3) ∧
      frames_presented world'.calls = 2 := by
  refine ⟨by decide, by decide, by decide, ?_⟩
  obtain ⟨⟨w', h1, _, h3⟩, _⟩ := C8_loop_stops_at_first_quit sample_stored 7 sample_world
    [none, some { type := 3 }] (some { type := SDL_QUIT }) [none] (by decide) (by decide)
    (by decide)
  exact ⟨w', h1, by rw [h3]; decide⟩

/-- C10 at the sample scene, from the empty model. -/
theorem C10_mesh_block_capacity_witness :
    sample_scene.mRootNode.well_formed sample_scene = true ∧
    sample_empty.mesh_count ≤ sample_empty.meshes.length ∧
    sample_empty.textures_loaded_count ≤ sample_empty.textures_loaded.length ∧
    (∀ p ∈ sample_scene.paths sample_scene.mRootNode.references,
      NameFits sample_empty.directory p) ∧
    LabelsFit sample_types ∧
    sample_empty.mesh_count + sample_scene.mRootNode.references.length < 2 ^ 32 ∧
    ∃ model' world' ops,
      Model_ProcessNode sample_types sample_scene sample_scene.mRootNode
        (sample_empty, sample_world) = some (model', world') ∧
      world'.heap = sample_world.heap ++ ops ∧
      mesh_writes ops = [0, 1, 2] ∧
      model'.mesh_count = model'.meshes.length := by
  refine ⟨by decide, by decide, by decide, by decide, by decide, by decide, ?_⟩
  obtain ⟨m', w', ops, h1, h2, _, h4, _, h6, _⟩ := C10_mesh_block_capacity sample_types
    sample_scene
    sample_scene.mRootNode sample_empty sample_world (by decide) (by decide) (by decide)
    (by decide) (by decide) (by decide)
  exact ⟨m', w', ops, h1, h2, by rw [h4]; decide, h6⟩

end ModelLoading
